import Mathlib

/-!
# Verification of the portfolio backtesting / strategy-validation core

Shallow embedding of the quantitative-finance core of the
Structured-Products-MCP-Server repository: the transaction-cost model,
the portfolio state manager (price updates, trade execution, performance
statistics), the walk-forward window generator and strategy optimizer,
and the Monte Carlo confidence engine with its block-bootstrap sampler.

Modelling conventions:
* JavaScript numbers are modelled as `ℚ`.  A value that may be the JS
  `NaN` (for example `this.cash` after the corrupted small-trade path in
  `executeTrade`) or another non-finite value is modelled as `Option ℚ`
  with `none` standing for "not a finite number"; JS arithmetic on such
  values propagates `none` and every JS comparison involving `none` is
  `false`, exactly as for `NaN`.
* `Math.pow` and `Math.sqrt` are transcendental on `ℚ`; they are threaded
  through the embedding as explicit function arguments (`powFn`,
  `sqrtFn`).  No theorem below depends on their values beyond properties
  stated as explicit hypotheses.
* `Math.random()` is modelled as an explicit stream `rng : Nat → ℚ` of
  draws together with a cursor that is advanced by one for every call.
* JS objects used as string-keyed records (`this.positions`, price maps)
  are modelled as association lists / functions to `Option`.
-/

/-- JS `+` where either operand may be non-finite (`undefined`/`NaN`
propagate as `none`). -/
def jadd : Option ℚ → Option ℚ → Option ℚ
  | some a, some b => some (a + b)
  | _, _ => none

/-- JS `-` with non-finite propagation. -/
def jsub : Option ℚ → Option ℚ → Option ℚ
  | some a, some b => some (a - b)
  | _, _ => none

/-- JS `a > b`: every comparison involving `NaN` is `false`. -/
def jgt : Option ℚ → Option ℚ → Bool
  | some a, some b => decide (b < a)
  | _, _ => false

/-- A single portfolio position, `{shares, avgPrice, currentPrice, value,
weight}` as initialised and mutated by `PortfolioState`. -/
structure Position where
  shares : ℚ
  avgPrice : ℚ
  currentPrice : ℚ
  value : ℚ
  weight : ℚ
deriving Repr, DecidableEq

/-- The all-zero position created by the `PortfolioState` constructor. -/
def Position.init : Position :=
  { shares := 0, avgPrice := 0, currentPrice := 0, value := 0, weight := 0 }

/-- One immutable valuation snapshot pushed onto `this.history` by
`updatePrices`. -/
structure Snapshot where
  date : String
  totalValue : Option ℚ
  cash : Option ℚ
  positions : List (String × Position)
deriving Repr, DecidableEq

/-- The cost-breakdown object returned by `calculateTradeCost` for trades
of at least `minTradeSize`. -/
structure CostBreakdown where
  fixedCost : ℚ
  variableCost : ℚ
  marketImpact : ℚ
  bidAskSpread : ℚ
  totalCost : ℚ
deriving Repr, DecidableEq

/-- `calculateTradeCost` returns the plain number `0` for sub-minimum
trades and a breakdown object otherwise; the two shapes are a sum type. -/
inductive TradeCostResult where
  | zero
  | breakdown (b : CostBreakdown)
deriving Repr, DecidableEq

/-- Reading the `.totalCost` property off the result of
`calculateTradeCost`: on the plain number `0` the property is
`undefined`, modelled as `none`. -/
def TradeCostResult.totalCostField : TradeCostResult → Option ℚ
  | .zero => none
  | .breakdown b => some b.totalCost

/-- `TransactionCostModel`: immutable configuration.  `powFn` models
`Math.pow`, used for the non-linear market-impact term. -/
structure TransactionCostModel where
  fixedCost : ℚ
  variableCostBps : ℚ
  marketImpactBps : ℚ
  marketImpactExponent : ℚ
  bidAskSpreadBps : ℚ
  minTradeSize : ℚ
  powFn : ℚ → ℚ → ℚ

/-- The constructor defaults (`config = {}`): $0 fixed, 5 bps variable,
2 bps impact with square-root-law exponent 0.5, 3 bps spread, $100
minimum trade. -/
def TransactionCostModel.defaults (powFn : ℚ → ℚ → ℚ) : TransactionCostModel :=
  { fixedCost := 0, variableCostBps := 5, marketImpactBps := 2,
    marketImpactExponent := 1/2, bidAskSpreadBps := 3, minTradeSize := 100,
    powFn := powFn }

/-- `TransactionCostModel.calculateTradeCost(tradeValue, averageDailyVolume)`. -/
def TransactionCostModel.calculateTradeCost (m : TransactionCostModel)
    (tradeValue averageDailyVolume : ℚ) : TradeCostResult :=
  if |tradeValue| < m.minTradeSize then
    .zero
  else
    let absTradeValue := |tradeValue|
    let fixedCostAmount := m.fixedCost
    let variableCostAmount := absTradeValue * (m.variableCostBps / 10000)
    let volumeRat := absTradeValue / averageDailyVolume
    let marketImpactAmount := absTradeValue * (m.marketImpactBps / 10000) *
      m.powFn volumeRat m.marketImpactExponent
    let bidAskCostAmount := absTradeValue * (m.bidAskSpreadBps / 10000)
    .breakdown
      { fixedCost := fixedCostAmount
        variableCost := variableCostAmount
        marketImpact := marketImpactAmount
        bidAskSpread := bidAskCostAmount
        totalCost := fixedCostAmount + variableCostAmount + marketImpactAmount +
          bidAskCostAmount }

/-- One transaction record appended to `this.transactions`. -/
structure Transaction where
  date : String
  symbol : String
  shares : ℚ
  price : ℚ
  value : ℚ
  costs : TradeCostResult
  cashAfter : Option ℚ
deriving Repr, DecidableEq

/-- `PortfolioState`: cash, cached total value, symbol→position map
(association list in JS object key order), symbol universe, and the
append-only history and transaction logs. -/
structure PortfolioState where
  cash : Option ℚ
  totalValue : Option ℚ
  positions : List (String × Position)
  symbols : List String
  history : List Snapshot
  transactions : List Transaction
deriving Repr, DecidableEq

/-- The `PortfolioState` constructor. -/
def PortfolioState.init (initialCash : ℚ) (symbols : List String) : PortfolioState :=
  { cash := some initialCash
    totalValue := some initialCash
    positions := symbols.map (fun s => (s, Position.init))
    symbols := symbols
    history := []
    transactions := [] }

/-- First `forEach` of `updatePrices`: a position whose symbol has a
truthy price (present and non-zero) gets `currentPrice` and
`value = shares * price` refreshed; other positions are untouched. -/
def updatePosPrice (priceData : String → Option ℚ) (e : String × Position) :
    String × Position :=
  match priceData e.1 with
  | some p => if p ≠ 0 then (e.1, { e.2 with currentPrice := p, value := e.2.shares * p }) else e
  | none => e

/-- The running `totalValue` accumulation of `updatePrices`: only the
positions hit by a truthy price contribute their (fresh) value. -/
def pricedValueSum (priceData : String → Option ℚ)
    (updated : List (String × Position)) : ℚ :=
  (updated.map (fun e =>
    match priceData e.1 with
    | some p => if p ≠ 0 then e.2.value else 0
    | none => 0)).sum

/-- `PortfolioState.updatePrices(priceData, date)`. -/
def PortfolioState.updatePrices (priceData : String → Option ℚ) (date : String)
    (s : PortfolioState) : PortfolioState :=
  let updated := s.positions.map (updatePosPrice priceData)
  let totalValue := jadd s.cash (some (pricedValueSum priceData updated))
  let weighted := updated.map (fun e =>
    (e.1, { e.2 with
      weight := if jgt totalValue (some 0) then e.2.value / totalValue.getD 0 else 0 }))
  { s with
    positions := weighted
    totalValue := totalValue
    history := s.history ++
      [{ date := date, totalValue := totalValue, cash := s.cash, positions := weighted }] }

/-- The result object of `executeTrade`. -/
inductive TradeOutcome where
  | notExecuted (reason : String)
  | executed (shares value : ℚ) (costs : TradeCostResult)
deriving Repr, DecidableEq

/-- Result of a call to `executeTrade`: a thrown error, exhaustion of the
recursion budget (the JS source recurses unboundedly), or a normal
return together with the post-call state. -/
inductive ExecResult where
  | thrown (msg : String)
  | outOfFuel
  | done (s : PortfolioState) (outcome : TradeOutcome)
deriving Repr, DecidableEq

/-- In-place update `this.positions[symbol] = ...` on the association
list. -/
def setPosition (sym : String) (p : Position) (l : List (String × Position)) :
    List (String × Position) :=
  l.map (fun e => if e.1 = sym then (e.1, p) else e)

/-- The unguarded tail of `executeTrade`, run when the funds check passes
or when the comparison involves `undefined`/`NaN` (sub-minimum trade,
where `costs.totalCost` is `undefined`) and is therefore `false`.  The
new cash is `cash - (tradeValue + costs.totalCost)` with JS non-finite
propagation: on the sub-minimum path it becomes `NaN` (`none`). -/
def commitTrade (sym : String) (tradeValue currentPrice : ℚ) (date : String)
    (costs : TradeCostResult) (pos : Position) (s : PortfolioState) : ExecResult :=
  let sharesToTrade := tradeValue / currentPrice
  let newShares := pos.shares + sharesToTrade
  let newAvgPrice :=
    if 0 < newShares then
      (pos.shares * pos.avgPrice + sharesToTrade * currentPrice) / newShares
    else currentPrice
  let newPos : Position :=
    { pos with
      shares := newShares
      avgPrice := newAvgPrice
      value := newShares * currentPrice }
  let newCash := jsub s.cash (jadd (some tradeValue) costs.totalCostField)
  let txn : Transaction :=
    { date := date
      symbol := sym
      shares := sharesToTrade
      price := currentPrice
      value := tradeValue
      costs := costs
      cashAfter := newCash }
  .done
    { s with
      positions := setPosition sym newPos s.positions
      cash := newCash
      transactions := s.transactions ++ [txn] }
    (.executed sharesToTrade tradeValue costs)

/-- `PortfolioState.executeTrade(symbol, targetValue, currentPrice,
transactionCostModel, date)`.  `fuel` bounds the trade-shrinking
recursion, which the JS source leaves unbounded (one unit is consumed
per call, so `fuel = n` allows `n - 1` shrink steps);
`averageDailyVolume` takes its default `1000000` at the internal
`calculateTradeCost` calls. -/
def PortfolioState.executeTrade (m : TransactionCostModel) (sym : String)
    (targetValue currentPrice : ℚ) (date : String) :
    Nat → PortfolioState → ExecResult
  | 0, _ => .outOfFuel
  | Nat.succ fuel, s =>
    match s.positions.lookup sym with
    | none => .thrown ("Symbol " ++ sym ++ " not in portfolio")
    | some pos =>
      let currentValue := pos.value
      let tradeValue := targetValue - currentValue
      let costs := m.calculateTradeCost tradeValue 1000000
      match s.cash, costs.totalCostField with
      | some c, some tc =>
        if c < tradeValue + tc then
          -- `tradeValue + costs.totalCost > this.cash`
          let availableCash := c - tc
          if 0 < availableCash then
            let reducedTradeValue := min tradeValue availableCash
            -- the source also computes `reducedCosts` here but never uses it
            PortfolioState.executeTrade m sym (currentValue + reducedTradeValue)
              currentPrice date fuel s
          else
            .done s (.notExecuted "insufficient_funds")
        else
          commitTrade sym tradeValue currentPrice date costs pos s
      | _, _ =>
        -- a `NaN` operand makes the funds check `false`, so the trade commits
        commitTrade sym tradeValue currentPrice date costs pos s
termination_by structural fuel _ => fuel

/-! ## Performance statistics (`getPerformanceStats` and the
portfolio-math helpers it calls) -/

/-- JS `*` with non-finite propagation. -/
def jmul : Option ℚ → Option ℚ → Option ℚ
  | some a, some b => some (a * b)
  | _, _ => none

/-- JS `/`: non-finite operands propagate, and division by zero produces
a non-finite value (`Infinity` or `NaN`), both modelled `none`. -/
def jdiv : Option ℚ → Option ℚ → Option ℚ
  | some a, some b => if b = 0 then none else some (a / b)
  | _, _ => none

/-- JS `x <= 0`: `false` for `NaN`. -/
def jle0 : Option ℚ → Bool
  | some a => decide (a ≤ 0)
  | none => false

/-- One iteration of the `calculateReturns` loop in percentage mode:
throws on a non-positive price; a `NaN` price slips through the guard
(JS comparisons with `NaN` are `false`) and yields a `NaN` return. -/
def stepReturn (prev cur : Option ℚ) : Except String (Option ℚ) :=
  if jle0 prev || jle0 cur then
    .error "Prices must be positive for return calculations"
  else
    .ok (jdiv (jsub cur prev) prev)

/-- `calculateReturns(prices, 'percentage')` from the portfolio-math
module. -/
def calculateReturnsPct (prices : List (Option ℚ)) :
    Except String (List (Option ℚ)) :=
  if prices.length < 2 then
    .error "Need at least 2 price points to calculate returns"
  else
    (prices.zip prices.tail).mapM (fun e => stepReturn e.1 e.2)

/-- Sum with JS non-finite propagation. -/
def jlistSum (l : List (Option ℚ)) : Option ℚ :=
  l.foldl jadd (some 0)

/-- `mean` from simple-statistics (callers guarantee a non-empty list;
the empty case, where the library throws, cannot be reached from the
modelled call sites and collapses to `none` via division by zero). -/
def jmean (l : List (Option ℚ)) : Option ℚ :=
  jdiv (jlistSum l) (some l.length)

/-- Population variance, as used by simple-statistics
`standardDeviation`. -/
def jvariance (l : List (Option ℚ)) : Option ℚ :=
  let m := jmean l
  jmean (l.map (fun x => jmul (jsub x m) (jsub x m)))

/-- `standardDeviation` from simple-statistics: the square root
(`sqrtF`) of the population variance. -/
def jstdDev (sqrtF : ℚ → ℚ) (l : List (Option ℚ)) : Option ℚ :=
  (jvariance l).map sqrtF

/-- `Math.pow(base, e)` on a possibly-NaN base. -/
def jpow (powF : ℚ → ℚ → ℚ) (b : Option ℚ) (e : ℚ) : Option ℚ :=
  b.map (fun x => powF x e)

/-- The `cumulativeReturns` reduce of `getPerformanceStats`:
`acc[0] = 1 + r₀`, `acc[i] = acc[i-1] * (1 + rᵢ)`. -/
def cumulativeFrom (returns : List (Option ℚ)) : List (Option ℚ) :=
  returns.foldl
    (fun acc r => acc ++ [jmul ((acc.getLast?).getD (some 1)) (jadd (some 1) r)]) []

/-- `calculateSharpeRatio(portfolioReturn, portfolioVolatility)` from
portfolio-math, risk-free rate defaulted to `0.05`.  The `Infinity`
returned for zero volatility and positive excess return is non-finite,
modelled `none`. -/
def calculateSharpeRatioPM (portfolioReturn portfolioVolatility : Option ℚ) :
    Option ℚ :=
  if portfolioVolatility = some 0 then
    (if jgt portfolioReturn (some (1/20)) then none else some 0)
  else
    jdiv (jsub portfolioReturn (some (1/20))) portfolioVolatility

/-- `calculateDownsideDeviation(returns, targetReturn)`: semi-standard
deviation of the returns strictly below the target (a `NaN` return fails
the `<` test and is excluded). -/
def calculateDownsideDeviation (sqrtF : ℚ → ℚ) (returns : List (Option ℚ))
    (targetReturn : ℚ) : Option ℚ :=
  let downside := returns.filter (fun r =>
    match r with
    | some q => decide (q < targetReturn)
    | none => false)
  if downside.length = 0 then some 0
  else jstdDev sqrtF downside

/-- `calculateSortinoRatio(portfolioReturn, returns)` from
portfolio-math, risk-free rate (and target) defaulted to `0.05`;
throws on an empty return series. -/
def calculateSortinoRatioPM (sqrtF : ℚ → ℚ) (portfolioReturn : Option ℚ)
    (returns : List (Option ℚ)) : Except String (Option ℚ) :=
  if returns.length = 0 then
    .error "Cannot calculate Sortino ratio with empty returns array"
  else
    let dd := calculateDownsideDeviation sqrtF returns (1/20)
    if dd = some 0 then
      .ok (if jgt portfolioReturn (some (1/20)) then none else some 0)
    else
      .ok (jdiv (jsub portfolioReturn (some (1/20))) dd)

/-- The record returned by `calculateMaxDrawdown`. -/
structure DrawdownInfo where
  maxDrawdown : Option ℚ
  peak : Nat
  trough : Nat
  recovery : Option Nat
  drawdownPeriod : Nat
deriving Repr, DecidableEq

/-- Accumulator of the `calculateMaxDrawdown` loop. -/
structure DrawdownAcc where
  peakValue : Option ℚ
  maxDrawdown : Option ℚ
  peakIndex : Nat
  troughIndex : Nat
  recoveryIndex : Option Nat

/-- One iteration of the `calculateMaxDrawdown` loop at index `i`. -/
def drawdownStep (a : DrawdownAcc) (i : Nat) (currentValue : Option ℚ) :
    DrawdownAcc :=
  let a1 :=
    if jgt currentValue a.peakValue then
      { a with
        peakValue := currentValue
        peakIndex := i
        recoveryIndex :=
          if jgt a.maxDrawdown (some 0) && a.recoveryIndex = none then some i
          else a.recoveryIndex }
    else a
  let currentDrawdown := jdiv (jsub a1.peakValue currentValue) a1.peakValue
  if jgt currentDrawdown a1.maxDrawdown then
    { a1 with
      maxDrawdown := currentDrawdown
      troughIndex := i
      recoveryIndex := none }
  else a1

/-- `calculateMaxDrawdown(cumulativeReturns)` from portfolio-math. -/
def calculateMaxDrawdownPM (cumulativeReturns : List (Option ℚ)) : DrawdownInfo :=
  if cumulativeReturns.length < 2 then
    { maxDrawdown := some 0, peak := 0, trough := 0, recovery := none,
      drawdownPeriod := 0 }
  else
    let first := cumulativeReturns.getD 0 none
    let a0 : DrawdownAcc :=
      { peakValue := first, maxDrawdown := some 0, peakIndex := 0,
        troughIndex := 0, recoveryIndex := none }
    let a := (cumulativeReturns.tail.enumFrom 1).foldl
      (fun acc e => drawdownStep acc e.1 e.2) a0
    { maxDrawdown := a.maxDrawdown
      peak := a.peakIndex
      trough := a.troughIndex
      recovery := a.recoveryIndex
      drawdownPeriod :=
        -- `recoveryIndex ? recoveryIndex - peakIndex : length - peakIndex - 1`
        match a.recoveryIndex with
        | some r => if r ≠ 0 then r - a.peakIndex
                    else cumulativeReturns.length - a.peakIndex - 1
        | none => cumulativeReturns.length - a.peakIndex - 1 }

/-- Ascending JS sort `(a, b) => a - b`; a list polluted by `NaN` has an
implementation-defined order, so any aggregate of it is modelled as the
unspecified value `none`. -/
def jsortAsc (l : List (Option ℚ)) : Option (List ℚ) :=
  let fins := l.filterMap id
  if fins.length = l.length then some (fins.mergeSort (fun a b => decide (a ≤ b)))
  else none

/-- `calculateVaR(returns, confidenceLevel)` from portfolio-math,
historical method. -/
def calculateVaRPM (returns : List (Option ℚ)) (confidenceLevel : ℚ) :
    Except String (Option ℚ) :=
  if returns.length = 0 then
    .error "Cannot calculate VaR with empty returns array"
  else
    match jsortAsc returns with
    | some sorted =>
      let idx := (⌊(1 - confidenceLevel) * (sorted.length : ℚ)⌋).toNat
      .ok (some (-(sorted.getD idx 0)))
    | none => .ok none

/-- `calculateExpectedShortfall(returns, confidenceLevel)` from
portfolio-math. -/
def calculateExpectedShortfallPM (returns : List (Option ℚ))
    (confidenceLevel : ℚ) : Except String (Option ℚ) :=
  if returns.length = 0 then
    .error "Cannot calculate Expected Shortfall with empty returns array"
  else
    match jsortAsc returns with
    | some sorted =>
      let cutoffIndex := (⌊(1 - confidenceLevel) * (sorted.length : ℚ)⌋).toNat
      let tailReturns := sorted.take (cutoffIndex + 1)
      .ok (if tailReturns.length > 0
        then jmul (some (-1)) (jmean (tailReturns.map some))
        else some 0)
    | none => .ok none

/-- The statistics record returned by `getPerformanceStats`. -/
structure PerfStats where
  totalReturn : Option ℚ
  annualizedReturn : Option ℚ
  volatility : Option ℚ
  annualizedVolatility : Option ℚ
  sharpeRatio : Option ℚ
  sortinoRatio : Option ℚ
  maxDrawdown : Option ℚ
  var95 : Option ℚ
  var99 : Option ℚ
  expectedShortfall95 : Option ℚ
  totalTransactionCosts : Option ℚ
  transactionCostDrag : Option ℚ
  numberOfTrades : Nat
  returns : List (Option ℚ)
  dates : List String
  cumulativeReturns : List (Option ℚ)
  portfolioValues : List (Option ℚ)

/-- `PortfolioState.getPerformanceStats()`.  The JS method mutates
nothing, so the embedding returns the state unchanged alongside the
result; `null` is `none`, a thrown error is `Except.error`.  `powF`
models `Math.pow` (annualisation) and `sqrtF` models `Math.sqrt`. -/
def PortfolioState.getPerformanceStats (powF : ℚ → ℚ → ℚ) (sqrtF : ℚ → ℚ)
    (s : PortfolioState) : PortfolioState × Except String (Option PerfStats) :=
  (s,
    if s.history.length < 2 then
      .ok none
    else do
      let values := s.history.map (fun h => h.totalValue)
      let returns ← calculateReturnsPct values
      let dates := s.history.tail.map (fun h => h.date)
      let cumulativeReturns := cumulativeFrom returns
      let totalReturn :=
        jsub (jdiv (values.getD (values.length - 1) none) (values.getD 0 none)) (some 1)
      let volatility := jstdDev sqrtF returns
      let sharpe := calculateSharpeRatioPM (jmean returns) volatility
      let sortino ← calculateSortinoRatioPM sqrtF (jmean returns) returns
      let maxDrawdownInfo := calculateMaxDrawdownPM cumulativeReturns
      let var95 ← calculateVaRPM returns (19/20)
      let var99 ← calculateVaRPM returns (99/100)
      let es95 ← calculateExpectedShortfallPM returns (19/20)
      let totalCosts :=
        (s.transactions.map (fun t => t.costs.totalCostField)).foldl jadd (some 0)
      .ok (some
        { totalReturn := totalReturn
          annualizedReturn :=
            jsub (jpow powF (jadd (some 1) totalReturn) (252 / (returns.length : ℚ))) (some 1)
          volatility := volatility
          annualizedVolatility := jmul volatility (some (sqrtF 252))
          sharpeRatio := sharpe
          sortinoRatio := sortino
          maxDrawdown := maxDrawdownInfo.maxDrawdown
          var95 := var95
          var99 := var99
          expectedShortfall95 := es95
          totalTransactionCosts := totalCosts
          transactionCostDrag := jdiv totalCosts (values.getD 0 none)
          numberOfTrades := s.transactions.length
          returns := returns
          dates := dates
          cumulativeReturns := cumulativeReturns
          portfolioValues := values }))

/-! ## Walk-forward analysis: time-window generation and the strategy
optimizer grid search -/

/-- The window-geometry part of `WalkForwardConfig` (the remaining
configuration fields do not influence `generateTimeWindows`). -/
structure WalkForwardConfig where
  lookbackWindow : Nat
  holdoutWindow : Nat
  stepSize : Nat
deriving Repr, DecidableEq

/-- A `{start, end}` date pair; `end` is a Lean keyword, so the second
field is named `stop`. -/
structure DateRange where
  start : String
  stop : String
deriving Repr, DecidableEq

/-- One window produced by `generateTimeWindows`. -/
structure TimeWindow where
  optimizationStart : String
  optimization : DateRange
  test : DateRange
  testEnd : String
deriving Repr, DecidableEq

/-- The window pushed for a given `startIndex`. -/
def mkTimeWindow (cfg : WalkForwardConfig) (allDates : List String)
    (startIndex : Nat) : TimeWindow :=
  let optimizationStart := allDates.getD (startIndex - cfg.lookbackWindow) ""
  let optimizationEnd := allDates.getD (startIndex - 1) ""
  let testStart := allDates.getD startIndex ""
  let testEnd :=
    allDates.getD (min (startIndex + cfg.holdoutWindow - 1) (allDates.length - 1)) ""
  { optimizationStart := optimizationStart
    optimization := { start := optimizationStart, stop := optimizationEnd }
    test := { start := testStart, stop := testEnd }
    testEnd := testEnd }

/-- The `while` loop of `generateTimeWindows`: push a window and advance
by `stepSize` while `startIndex + holdoutWindow < allDates.length`.
`fuel` bounds the loop (the JS loop would run forever only for
`stepSize = 0`); `fuel = allDates.length` suffices for any positive
step. -/
def generateTimeWindowsAux (cfg : WalkForwardConfig) (allDates : List String)
    (fuel startIndex : Nat) : List TimeWindow :=
  if fuel = 0 then []
  else if startIndex + cfg.holdoutWindow < allDates.length then
    mkTimeWindow cfg allDates startIndex ::
      generateTimeWindowsAux cfg allDates (fuel - 1) (startIndex + cfg.stepSize)
  else []
termination_by fuel
decreasing_by omega

/-- `WalkForwardAnalysis.generateTimeWindows()`, taking the sorted list
of distinct trading dates (the result of `getAllTradingDates`) as an
argument. -/
def generateTimeWindows (cfg : WalkForwardConfig) (allDates : List String) :
    List TimeWindow :=
  if allDates.length < cfg.lookbackWindow + cfg.holdoutWindow then []
  else generateTimeWindowsAux cfg allDates allDates.length cfg.lookbackWindow

/-- A strategy-parameter value (JS parameter objects hold numbers and
the method-name string). -/
inductive ParamValue where
  | num (q : ℚ)
  | str (s : String)
deriving Repr, DecidableEq

/-- A JS parameter object, in key order. -/
abbrev Params := List (String × ParamValue)

/-- The result object of `PortfolioStrategyOptimizer.optimizeStrategy`
and its per-method helpers.  Fields present only on some of the JS
result shapes are `Option`-valued (`none` = absent). -/
structure StrategyResult where
  weights : List ℚ
  parameters : Params
  score : ℚ
  fallback : Bool
  converged : Option Bool
  iterations : Option ℚ
  riskParityScore : Option ℚ
  expectedReturn : Option ℚ
  volatility : Option (Option ℚ)
  sharpeRatio : Option ℚ
deriving Repr, DecidableEq

/-- `PortfolioStrategyOptimizer.getFallbackStrategy()`: equal weights
over the symbol universe. -/
def getFallbackStrategy (symbols : List String) : StrategyResult :=
  { weights := List.replicate symbols.length (1 / (symbols.length : ℚ))
    parameters := [("method", .str "equal_weight")]
    score := 0
    fallback := true
    converged := none
    iterations := none
    riskParityScore := none
    expectedReturn := none
    volatility := none
    sharpeRatio := none }

/-- A price point `{date, price}` of the historical data. -/
structure PricePoint where
  date : String
  price : ℚ
deriving Repr, DecidableEq

/-- `calculateReturns(prices, 'percentage')` specialised to finite
prices (the walk-forward call sites feed real market prices). -/
def calculateReturnsQ (prices : List ℚ) : Except String (List ℚ) :=
  if prices.length < 2 then
    .error "Need at least 2 price points to calculate returns"
  else
    (prices.zip prices.tail).mapM (fun e =>
      if e.1 ≤ 0 ∨ e.2 ≤ 0 then
        .error "Prices must be positive for return calculations"
      else
        .ok ((e.2 - e.1) / e.1))

/-- `PortfolioStrategyOptimizer.extractReturnsForWindow(dataWindow)`.
`dateLe a b` models the JS `new Date(a) <= new Date(b)` comparison,
which depends on the runtime's date parsing and is therefore abstract
here. -/
def extractReturnsForWindow (dateLe : String → String → Bool)
    (symbols : List String) (hist : String → List PricePoint)
    (w : DateRange) : Except String (List (List ℚ)) :=
  symbols.foldlM
    (fun acc sym => do
      let windowData := (hist sym).filter
        (fun d => dateLe w.start d.date && dateLe d.date w.stop)
      if windowData.length > 1 then
        let returns ← calculateReturnsQ (windowData.map (fun d => d.price))
        pure (acc ++ [returns])
      else
        pure acc)
    []

/-- `mean` from simple-statistics on finite data: throws on an empty
list. -/
def ssMean (l : List ℚ) : Except String ℚ :=
  if l.length = 0 then .error "mean requires at least one data point"
  else .ok (l.sum / (l.length : ℚ))

/-- Population `variance` from simple-statistics: throws on an empty
list. -/
def ssVariance (l : List ℚ) : Except String ℚ := do
  let m ← ssMean l
  .ok ((l.map (fun x => (x - m) * (x - m))).sum / (l.length : ℚ))

/-- The local `covariance(x, y)` helper of portfolio-math (sample
covariance); the result is `Option`-valued because the `n - 1`
denominator vanishes for single-point series (non-finite in JS). -/
def covariancePM (x y : List ℚ) : Except String (Option ℚ) :=
  if x.length ≠ y.length then .error "Arrays must have the same length"
  else do
    let meanX ← ssMean x
    let meanY ← ssMean y
    .ok (jdiv
      (some (((x.zip y).map (fun e => (e.1 - meanX) * (e.2 - meanY))).sum))
      (some ((x.length : ℚ) - 1)))

/-- A numeric matrix with possibly non-finite entries (`ml-matrix`
values). -/
abbrev CovMatrix := List (List (Option ℚ))

/-- `calculateCovarianceMatrix(returnsMatrix)` from portfolio-math:
variances on the diagonal, pairwise sample covariances off it. -/
def calculateCovarianceMatrix (returnsMatrix : List (List ℚ)) :
    Except String CovMatrix := do
  let numAssets := returnsMatrix.length
  (List.range numAssets).mapM (fun i =>
    (List.range numAssets).mapM (fun j =>
      if i = j then do
        let v ← ssVariance (returnsMatrix.getD i [])
        pure (some v)
      else
        covariancePM (returnsMatrix.getD i []) (returnsMatrix.getD j [])))

/-- Result shape of the injected risk-parity optimization core
(`optimizeRiskParity` from portfolio-math; the optimization formulas are
external collaborators of the validation pipeline). -/
structure RPResult where
  weights : List ℚ
  converged : Bool
  iterations : ℚ
  riskParityScore : ℚ

/-- Result shape of the injected Black-Litterman core; `weights` is
`none` when the JS result has no truthy `weights` field. -/
structure BLResult where
  weights : Option (List ℚ)
  portfolioReturn : ℚ
  portfolioVolatility : ℚ

/-- The three injected optimization cores (invoked as pure functions;
each may throw). -/
structure OptimizerCores where
  riskParityCore : CovMatrix → ℚ → ℚ → Except String RPResult
  minVarianceCore : List ℚ → CovMatrix → ℚ → Except String (List ℚ)
  blCore : List ℚ → CovMatrix → ℚ → ℚ → Except String BLResult

/-- Optional overrides of the grid-search parameter ranges
(`parameterRanges`); `none` selects the hard-coded default range. -/
structure ParameterRanges where
  maxIterations : Option (List ℚ)
  tolerance : Option (List ℚ)
  targetReturn : Option (List ℚ)
  tau : Option (List ℚ)
  riskAversion : Option (List ℚ)

/-- All-default parameter ranges (`parameterRanges = {}`). -/
def ParameterRanges.defaults : ParameterRanges :=
  { maxIterations := none, tolerance := none, targetReturn := none,
    tau := none, riskAversion := none }

/-- Grid-search accumulator: `none` models
`bestResult = null, bestScore = -Infinity`. -/
abbrev GridAcc := Option (ℚ × StrategyResult)

/-- `score > bestScore` where `bestScore` starts at `-Infinity`. -/
def betterScore (score : ℚ) : GridAcc → Bool
  | none => true
  | some (bestScore, _) => decide (bestScore < score)

/-- One grid cell of `optimizeRiskParity`: the combination is skipped if
the core throws (`catch ... continue`) or did not converge. -/
def riskParityStep (cores : OptimizerCores) (cov : CovMatrix)
    (acc : GridAcc) (cell : ℚ × ℚ) : GridAcc :=
  match cores.riskParityCore cov cell.1 cell.2 with
  | .error _ => acc
  | .ok result =>
    if result.converged then
      let score := result.riskParityScore - result.iterations / cell.1 * (1/10)
      if betterScore score acc then
        some (score,
          { weights := result.weights
            parameters := [("maxIterations", .num cell.1), ("tolerance", .num cell.2)]
            score := score
            fallback := false
            converged := some result.converged
            iterations := some result.iterations
            riskParityScore := some result.riskParityScore
            expectedReturn := none
            volatility := none
            sharpeRatio := none })
      else acc
    else acc

/-- `optimizeRiskParity(dataWindow, parameterRanges)`. -/
def optimizeRiskParity (cores : OptimizerCores) (dateLe : String → String → Bool)
    (symbols : List String) (hist : String → List PricePoint)
    (dataWindow : DateRange) (ranges : ParameterRanges) :
    Except String StrategyResult :=
  match extractReturnsForWindow dateLe symbols hist dataWindow with
  | .error e => .error e
  | .ok windowReturns =>
    match calculateCovarianceMatrix windowReturns with
    | .error e => .error e
    | .ok covarianceMatrix =>
      let maxIterationsRange := ranges.maxIterations.getD [50, 100, 200]
      let toleranceRange := ranges.tolerance.getD [1/1000000, 1/100000, 1/10000]
      let cells := maxIterationsRange.flatMap
        (fun mi => toleranceRange.map (fun tol => (mi, tol)))
      let best := cells.foldl (riskParityStep cores covarianceMatrix) none
      .ok (match best with
        | some br => br.2
        | none => getFallbackStrategy symbols)

/-- Matrix entry access `covarianceMatrix.get(i, j)`. -/
def matGet (m : CovMatrix) (i j : Nat) : Option ℚ :=
  (m.getD i []).getD j none

/-- `generateTargetReturnRange(expectedReturns)`: six equally spaced
targets between the smallest and largest expected return.  For an empty
input the JS `Math.min()`/`Math.max()` produce non-finite bounds and the
resulting six targets are non-finite; every optimization attempt on them
fails, which is modelled by the empty range (both give the fallback). -/
def generateTargetReturnRange (expectedReturns : List ℚ) : List ℚ :=
  match expectedReturns with
  | [] => []
  | x :: xs =>
    let minReturn := xs.foldl min x
    let maxReturn := xs.foldl max x
    let step := (maxReturn - minReturn) / 5
    (List.range 6).map (fun i => minReturn + (i : ℚ) * step)

/-- Portfolio volatility `sqrt(wᵀ Σ w)` as computed inline by
`optimizeMeanVariance` (`sqrtF` models `Math.sqrt`; a non-finite
quadratic form stays non-finite). -/
def portfolioVolOf (sqrtF : ℚ → ℚ) (weights : List ℚ) (cov : CovMatrix) : Option ℚ :=
  let quad := (List.range weights.length).foldl
    (fun acc i => jadd acc
      ((List.range weights.length).foldl
        (fun inner j => jadd inner
          (jmul (some (weights.getD i 0 * weights.getD j 0)) (matGet cov i j)))
        (some 0)))
    (some 0)
  quad.map sqrtF

/-- One grid cell of `optimizeMeanVariance`: a throwing core call is
skipped (`catch ... continue`). -/
def meanVarianceStep (cores : OptimizerCores) (sqrtF : ℚ → ℚ)
    (expectedReturns : List ℚ) (cov : CovMatrix)
    (acc : GridAcc) (targetReturn : ℚ) : GridAcc :=
  match cores.minVarianceCore expectedReturns cov targetReturn with
  | .error _ => acc
  | .ok weights =>
    let portfolioReturn := ((expectedReturns.zip weights).map (fun e => e.2 * e.1)).sum
    let portfolioVol := portfolioVolOf sqrtF weights cov
    let sharpe :=
      if jgt portfolioVol (some 0) then (portfolioReturn - 1/20) / portfolioVol.getD 1
      else 0
    if betterScore sharpe acc then
      some (sharpe,
        { weights := weights
          parameters := [("targetReturn", .num targetReturn)]
          score := sharpe
          fallback := false
          converged := none
          iterations := none
          riskParityScore := none
          expectedReturn := some portfolioReturn
          volatility := some portfolioVol
          sharpeRatio := some sharpe })
    else acc

/-- `optimizeMeanVariance(dataWindow, parameterRanges)`. -/
def optimizeMeanVariance (cores : OptimizerCores) (dateLe : String → String → Bool)
    (sqrtF : ℚ → ℚ) (symbols : List String) (hist : String → List PricePoint)
    (dataWindow : DateRange) (ranges : ParameterRanges) :
    Except String StrategyResult :=
  match extractReturnsForWindow dateLe symbols hist dataWindow with
  | .error e => .error e
  | .ok windowReturns =>
    match calculateCovarianceMatrix windowReturns with
    | .error e => .error e
    | .ok covarianceMatrix =>
      match windowReturns.mapM ssMean with
      | .error e => .error e
      | .ok expectedReturns =>
        let targetReturnRange :=
          ranges.targetReturn.getD (generateTargetReturnRange expectedReturns)
        let best := targetReturnRange.foldl
          (meanVarianceStep cores sqrtF expectedReturns covarianceMatrix) none
        .ok (match best with
          | some br => br.2
          | none => getFallbackStrategy symbols)

/-- One grid cell of `optimizeBlackLitterman`: skipped when the core
throws or returns no truthy `weights`.  The score `return / volatility`
is non-finite for zero volatility; such a cell is modelled as skipped
(unreachable under the claims below, which make every cell fail). -/
def blackLittermanStep (cores : OptimizerCores) (marketCapWeights : List ℚ)
    (cov : CovMatrix) (acc : GridAcc) (cell : ℚ × ℚ) : GridAcc :=
  match cores.blCore marketCapWeights cov cell.1 cell.2 with
  | .error _ => acc
  | .ok blResult =>
    match blResult.weights with
    | none => acc
    | some weights =>
      match jdiv (some blResult.portfolioReturn) (some blResult.portfolioVolatility) with
      | none => acc
      | some score =>
        if betterScore score acc then
          some (score,
            { weights := weights
              parameters := [("tau", .num cell.1), ("riskAversion", .num cell.2)]
              score := score
              fallback := false
              converged := none
              iterations := none
              riskParityScore := none
              expectedReturn := some blResult.portfolioReturn
              volatility := some (some blResult.portfolioVolatility)
              sharpeRatio := none })
        else acc

/-- `optimizeBlackLitterman(dataWindow, parameterRanges)`. -/
def optimizeBlackLitterman (cores : OptimizerCores) (dateLe : String → String → Bool)
    (symbols : List String) (hist : String → List PricePoint)
    (dataWindow : DateRange) (ranges : ParameterRanges) :
    Except String StrategyResult :=
  match extractReturnsForWindow dateLe symbols hist dataWindow with
  | .error e => .error e
  | .ok windowReturns =>
    match calculateCovarianceMatrix windowReturns with
    | .error e => .error e
    | .ok covarianceMatrix =>
      let marketCapWeights := List.replicate symbols.length (1 / (symbols.length : ℚ))
      let tauRange := ranges.tau.getD [1/100, 1/40, 1/20, 1/10]
      let riskAversionRange := ranges.riskAversion.getD [1, 3, 5, 10]
      let cells := tauRange.flatMap
        (fun tau => riskAversionRange.map (fun ra => (tau, ra)))
      let best := cells.foldl
        (blackLittermanStep cores marketCapWeights covarianceMatrix) none
      .ok (match best with
        | some br => br.2
        | none => getFallbackStrategy symbols)

/-- The `switch (method)` body of `optimizeStrategy` (inside its
`try`). -/
def tryOptimizeStrategy (cores : OptimizerCores) (dateLe : String → String → Bool)
    (sqrtF : ℚ → ℚ) (symbols : List String) (hist : String → List PricePoint)
    (method : String) (dataWindow : DateRange) (ranges : ParameterRanges) :
    Except String StrategyResult :=
  if method = "risk_parity" then
    optimizeRiskParity cores dateLe symbols hist dataWindow ranges
  else if method = "mean_variance" then
    optimizeMeanVariance cores dateLe sqrtF symbols hist dataWindow ranges
  else if method = "black_litterman" then
    optimizeBlackLitterman cores dateLe symbols hist dataWindow ranges
  else
    .error ("Unknown optimization method: " ++ method)

/-- `PortfolioStrategyOptimizer.optimizeStrategy(method, dataWindow,
parameterRanges)`: any escaping error is caught and replaced by the
equal-weight fallback. -/
def optimizeStrategy (cores : OptimizerCores) (dateLe : String → String → Bool)
    (sqrtF : ℚ → ℚ) (symbols : List String) (hist : String → List PricePoint)
    (method : String) (dataWindow : DateRange) (ranges : ParameterRanges) :
    StrategyResult :=
  match tryOptimizeStrategy cores dateLe sqrtF symbols hist method dataWindow ranges with
  | .ok result => result
  | .error _ => getFallbackStrategy symbols

/-! ## Monte Carlo confidence engine -/

/-- The `MonteCarloConfig` fields that influence the embedded run.
`returnDistribution` keeps its default `'bootstrap'` (the `'normal'` and
`'historical'` scenario generators are not exercised by any claim), and
`includePerturbations` is omitted because the constructor expression
`config.includePerturbations || true` is `true` for every input.
`confidenceLevels` only feeds the confidence-interval table, which no
claim touches. -/
structure MonteCarloConfig where
  numSimulations : Nat
  blockBootstrapLength : Nat
  robustnessThreshold : ℚ
  perturbationMagnitude : ℚ
deriving Repr, DecidableEq

/-- `BlockBootstrapSampler`: the constructor captures the original
series and block length (`numBlocks` is computed but unused by
`generateSample`). -/
structure BlockBootstrapSampler where
  originalReturns : List ℚ
  blockLength : Nat
deriving Repr, DecidableEq

/-- The `while` loop of `generateSample`: append one randomly placed
block per iteration until the accumulated sample reaches the target
length.  `Math.random()` draws come from `rng` at cursor `k` (one draw
per iteration); the returned cursor points past the consumed draws.
`fuel` bounds the loop: with a non-empty original series every block is
non-empty, so `fuel = targetLength` suffices; for an empty series the JS
loop never terminates and the embedding truncates. -/
def generateSampleAux (sampler : BlockBootstrapSampler) (rng : Nat → ℚ)
    (targetLength : Nat) : Nat → Nat → List ℚ → List ℚ × Nat
  | fuel, k, sample =>
    if targetLength ≤ sample.length then (sample, k)
    else
      match fuel with
      | 0 => (sample, k)
      | Nat.succ f =>
        let len := sampler.originalReturns.length
        -- `Math.max(0, length - blockLength)` is Nat truncated subtraction
        let maxStartIndex := len - sampler.blockLength
        let startIndex := (⌊rng k * ((maxStartIndex : ℚ) + 1)⌋).toNat
        let endIndex := min (startIndex + sampler.blockLength) len
        let block := (sampler.originalReturns.take endIndex).drop startIndex
        generateSampleAux sampler rng targetLength f (k + 1) (sample ++ block)
termination_by structural fuel _ _ => fuel

/-- `BlockBootstrapSampler.generateSample(targetLength)` together with
the advanced random cursor. -/
def BlockBootstrapSampler.generateSample (sampler : BlockBootstrapSampler)
    (rng : Nat → ℚ) (k targetLength : Nat) : List ℚ × Nat :=
  let r := generateSampleAux sampler rng targetLength targetLength k []
  (r.1.take targetLength, r.2)

/-- `ParameterPerturbation.generatePerturbedParameters()`: each numeric
parameter is scaled by `1 + U` with `U = (Math.random() - 0.5) * 2 *
magnitude` (one draw per numeric parameter); non-numeric parameters pass
through with a recorded perturbation of `0`. -/
def generatePerturbedParameters (baseParameters : Params) (magnitude : ℚ)
    (rng : Nat → ℚ) (k : Nat) : (Params × List (String × ℚ)) × Nat :=
  baseParameters.foldl
    (fun acc e =>
      match e.2 with
      | .num value =>
        let perturbation := (rng acc.2 - 1/2) * 2 * magnitude
        ((acc.1.1 ++ [(e.1, .num (value * (1 + perturbation)))],
          acc.1.2 ++ [(e.1, perturbation)]), acc.2 + 1)
      | .str _ =>
        ((acc.1.1 ++ [e], acc.1.2 ++ [(e.1, 0)]), acc.2))
    (([], []), k)

/-- One Monte Carlo trial's outcome (`SimulationScenario`). -/
structure SimulationScenario where
  returns : List ℚ
  totalReturn : ℚ
  volatility : ℚ
  sharpeRatio : ℚ
  maxDrawdown : ℚ
  var95 : ℚ
  parameters : Params
  perturbations : List (String × ℚ)
deriving Repr, DecidableEq

/-- The constructor defaults with the failure sentinel
`totalReturn = -1` applied (`simulateStrategy`'s catch branch). -/
def failedScenario : SimulationScenario :=
  { returns := [], totalReturn := -1, volatility := 0, sharpeRatio := 0,
    maxDrawdown := 0, var95 := 0, parameters := [], perturbations := [] }

/-- The injected strategy function: may fail, and may return its own
return series (`result.returns`, `none` when absent). -/
structure StratOutput where
  returns : Option (List ℚ)

/-- `strategyFunction(returns, params)`. -/
abbrev StrategyFunction := List ℚ → Params → Except String StratOutput

/-- `PortfolioStrategySimulator.calculateTotalReturn(returns)`:
compounded total return. -/
def simTotalReturn (returns : List ℚ) : ℚ :=
  returns.foldl (fun total r => total * (1 + r)) 1 - 1

/-- Population variance over finite values (callers guarantee
non-emptiness; the empty case would have thrown earlier in JS). -/
def popVariance (l : List ℚ) : ℚ :=
  let m := l.sum / (l.length : ℚ)
  (l.map (fun x => (x - m) * (x - m))).sum / (l.length : ℚ)

/-- `PortfolioStrategySimulator.calculateSharpeRatio(returns)` with the
default risk-free rate `0.05`: both numerator and denominator carry the
same `Math.sqrt(252)` annualisation factor. -/
def simSharpe (sqrtF : ℚ → ℚ) (returns : List ℚ) : ℚ :=
  let excessReturns := returns.map (fun r => r - (1/20) / 252)
  let meanExcess := excessReturns.sum / (excessReturns.length : ℚ)
  let stdExcess := sqrtF (popVariance excessReturns)
  if 0 < stdExcess then (meanExcess * sqrtF 252) / (stdExcess * sqrtF 252) else 0

/-- `PortfolioStrategySimulator.calculateMaxDrawdown(returns)` (the peak
starts at 1 and never decreases, so the division is by a positive
value). -/
def simMaxDrawdown (returns : List ℚ) : ℚ :=
  (returns.foldl
    (fun acc ret =>
      let current := acc.2.2 * (1 + ret)
      let peak := if acc.2.1 < current then current else acc.2.1
      let drawdown := (peak - current) / peak
      (max acc.1 drawdown, peak, current))
    (0, 1, 1)).1

/-- `PortfolioStrategySimulator.calculateVaR(returns, confidenceLevel)`. -/
def simVaR (returns : List ℚ) (confidenceLevel : ℚ) : ℚ :=
  let sortedReturns := returns.mergeSort (fun a b => decide (a ≤ b));
  let index := (⌊(1 - confidenceLevel) * (sortedReturns.length : ℚ)⌋).toNat;
  -(sortedReturns.getD index 0)

/-- `PortfolioStrategySimulator.simulateStrategy(returns, parameters)`:
a throwing strategy function gives the failed scenario; an empty
effective return series makes `standardDeviation` throw inside the same
`try`, with the same result. -/
def simulateStrategy (sqrtF : ℚ → ℚ) (strategy : StrategyFunction)
    (baseParameters : Params) (returns : List ℚ) (parameters : Option Params) :
    SimulationScenario :=
  let params := parameters.getD baseParameters
  match strategy returns params with
  | .error _ => failedScenario
  | .ok result =>
    let rs := result.returns.getD returns
    if rs.length = 0 then failedScenario
    else
      { returns := rs
        totalReturn := simTotalReturn rs
        volatility := sqrtF (popVariance rs)
        sharpeRatio := simSharpe sqrtF rs
        maxDrawdown := simMaxDrawdown rs
        var95 := simVaR rs (19/20)
        parameters := params
        perturbations := [] }

/-- One iteration of the `runMonteCarloSimulations` loop: draw a
bootstrap scenario, flip a coin for parameter perturbation (the
perturber always exists, see `MonteCarloConfig`), simulate, and attach
the applied perturbations. -/
def runOneSim (cfg : MonteCarloConfig) (sqrtF : ℚ → ℚ)
    (strategy : StrategyFunction) (baseParams : Params) (baseline : List ℚ)
    (rng : Nat → ℚ) (k : Nat) : SimulationScenario × Nat :=
  let sampler : BlockBootstrapSampler :=
    { originalReturns := baseline, blockLength := cfg.blockBootstrapLength }
  let sampled := sampler.generateSample rng k baseline.length
  let simulatedReturns := sampled.1
  let coin := rng sampled.2
  let k2 := sampled.2 + 1
  if coin < 1/2 then
    let pr := generatePerturbedParameters baseParams cfg.perturbationMagnitude rng k2
    let scenario := simulateStrategy sqrtF strategy baseParams simulatedReturns (some pr.1.1)
    ({ scenario with perturbations := pr.1.2 }, pr.2)
  else
    let scenario := simulateStrategy sqrtF strategy baseParams simulatedReturns none
    ({ scenario with perturbations := [] }, k2)

/-- The simulation loop (`i = 0 .. numSimulations - 1`), threading the
random cursor. -/
def runSimsAux (cfg : MonteCarloConfig) (sqrtF : ℚ → ℚ)
    (strategy : StrategyFunction) (baseParams : Params) (baseline : List ℚ)
    (rng : Nat → ℚ) : Nat → Nat → List SimulationScenario →
    List SimulationScenario × Nat
  | 0, k, acc => (acc, k)
  | Nat.succ n, k, acc =>
    let r := runOneSim cfg sqrtF strategy baseParams baseline rng k
    runSimsAux cfg sqrtF strategy baseParams baseline rng n r.2 (acc ++ [r.1])
termination_by structural n _ _ => n

/-- `runMonteCarloSimulations()`: run the loop, then filter out failed
trials (`totalReturn !== -1`). -/
def runMonteCarloSimulations (cfg : MonteCarloConfig) (sqrtF : ℚ → ℚ)
    (strategy : StrategyFunction) (baseParams : Params) (baseline : List ℚ)
    (rng : Nat → ℚ) (k : Nat) : List SimulationScenario × Nat :=
  let r := runSimsAux cfg sqrtF strategy baseParams baseline rng cfg.numSimulations k []
  (r.1.filter (fun s => s.totalReturn ≠ -1), r.2)

/-- `quantile(x, p)` from simple-statistics (its `quantileSorted`
algorithm on an ascending copy). -/
def ssQuantile (l : List ℚ) (p : ℚ) : Except String ℚ :=
  if l.length = 0 then .error "quantile requires at least one data point."
  else if p < 0 ∨ 1 < p then .error "quantiles must be between 0 and 1"
  else
    let x := l.mergeSort (fun a b => decide (a ≤ b));
    let idx : ℚ := (x.length : ℚ) * p;
    .ok (if p = 1 then x.getD (x.length - 1) 0
      else if p = 0 then x.getD 0 0
      else if idx.den ≠ 1 then x.getD ((⌈idx⌉ - 1).toNat) 0
      else if x.length % 2 = 0 then
        (x.getD ((⌊idx⌋ - 1).toNat) 0 + x.getD (⌊idx⌋.toNat) 0) / 2
      else x.getD (⌊idx⌋.toNat) 0)

/-- `Math.min(...values)` (`none` = `Infinity` on an empty spread). -/
def jsMin : List ℚ → Option ℚ
  | [] => none
  | x :: xs => some (xs.foldl min x)

/-- `Math.max(...values)` (`none` = `-Infinity` on an empty spread). -/
def jsMax : List ℚ → Option ℚ
  | [] => none
  | x :: xs => some (xs.foldl max x)

/-- The `metrics.returnRobustness` record.  The two fractions are
`count / length`, which is the non-finite `0/0` (`none`) when no trial
survived. -/
structure ReturnRobustness where
  percentileAboveThreshold : Option ℚ
  percentilePositive : Option ℚ
  worstCase : Option ℚ
  bestCase : Option ℚ
  downside95 : ℚ
deriving Repr, DecidableEq

/-- The `metrics.sharpeRobustness` record. -/
structure SharpeRobustness where
  percentileAboveThreshold : Option ℚ
  percentilePositive : Option ℚ
  worstCase : Option ℚ
  bestCase : Option ℚ
deriving Repr, DecidableEq

/-- The `metrics.parameterSensitivity` record (present only when both
perturbed and base-case trials exist). -/
structure ParameterSensitivity where
  perturbedMean : ℚ
  baseCaseMean : ℚ
  sensitivityRatio : Option ℚ
deriving Repr, DecidableEq

/-- The `robustnessMetrics` record. -/
structure RobustnessMetrics where
  returnRobustness : ReturnRobustness
  sharpeRobustness : SharpeRobustness
  parameterSensitivity : Option ParameterSensitivity
deriving Repr, DecidableEq

/-- Fraction of values satisfying the predicate (`filter(...).length /
values.length`, `NaN` for the empty list). -/
def fracSatisfying (values : List ℚ) (p : ℚ → Bool) : Option ℚ :=
  if values.length = 0 then none
  else some (((values.filter p).length : ℚ) / (values.length : ℚ))

/-- `calculateRobustnessMetrics(simulations)`: the only throwing step is
the `quantile` for `downside95` (empty survivor list). -/
def calculateRobustnessMetrics (cfg : MonteCarloConfig)
    (baselineMetrics : SimulationScenario) (simulations : List SimulationScenario) :
    Except String RobustnessMetrics :=
  let baselineReturn := baselineMetrics.totalReturn
  let baselineSharpe := baselineMetrics.sharpeRatio
  let returns := simulations.map (fun s => s.totalReturn)
  let sharpeRatios := simulations.map (fun s => s.sharpeRatio)
  match ssQuantile returns (1/20) with
  | .error e => .error e
  | .ok downside95 =>
  let returnRobustness : ReturnRobustness :=
    { percentileAboveThreshold :=
        fracSatisfying returns (fun r => decide (baselineReturn * cfg.robustnessThreshold ≤ r))
      percentilePositive := fracSatisfying returns (fun r => decide (0 < r))
      worstCase := jsMin returns
      bestCase := jsMax returns
      downside95 := downside95 }
  let sharpeRobustness : SharpeRobustness :=
    { percentileAboveThreshold :=
        fracSatisfying sharpeRatios (fun s => decide (baselineSharpe * cfg.robustnessThreshold ≤ s))
      percentilePositive := fracSatisfying sharpeRatios (fun s => decide (0 < s))
      worstCase := jsMin sharpeRatios
      bestCase := jsMax sharpeRatios }
  let perturbedSimulations := simulations.filter (fun s => s.perturbations.length ≠ 0)
  let baseCaseSimulations := simulations.filter (fun s => s.perturbations.length = 0)
  let parameterSensitivity : Option ParameterSensitivity :=
    if perturbedSimulations.length ≠ 0 ∧ baseCaseSimulations.length ≠ 0 then
      let perturbedMean := (perturbedSimulations.map (fun s => s.totalReturn)).sum /
        (perturbedSimulations.length : ℚ);
      let baseCaseMean := (baseCaseSimulations.map (fun s => s.totalReturn)).sum /
        (baseCaseSimulations.length : ℚ);
      some { perturbedMean := perturbedMean
             baseCaseMean := baseCaseMean
             sensitivityRatio := jdiv (some perturbedMean) (some baseCaseMean) }
    else none
  .ok { returnRobustness := returnRobustness
        sharpeRobustness := sharpeRobustness
        parameterSensitivity := parameterSensitivity }

/-- `calculateSkewness(values)`. -/
def calculateSkewness (sqrtF : ℚ → ℚ) (values : List ℚ) : ℚ :=
  let n := (values.length : ℚ);
  let meanVal := values.sum / n;
  let stdVal := sqrtF (popVariance values);
  if stdVal = 0 then 0
  else (values.map (fun x => ((x - meanVal) / stdVal) ^ 3)).sum / n

/-- `calculateKurtosis(values)` (excess kurtosis). -/
def calculateKurtosis (sqrtF : ℚ → ℚ) (values : List ℚ) : ℚ :=
  let n := (values.length : ℚ);
  let meanVal := values.sum / n;
  let stdVal := sqrtF (popVariance values);
  if stdVal = 0 then 0
  else (values.map (fun x => ((x - meanVal) / stdVal) ^ 4)).sum / n - 3

/-- Per-metric slice of `distributionStats`. -/
structure DistSide where
  mean : ℚ
  median : ℚ
  std : ℚ
  skewness : ℚ
  kurtosis : ℚ
deriving Repr, DecidableEq

/-- `calculateDistributionStats(simulations)` (the returns side also
carries `min`/`max`). -/
structure DistributionStats where
  returns : DistSide
  returnsMin : Option ℚ
  returnsMax : Option ℚ
  sharpeRatios : DistSide
deriving Repr, DecidableEq

/-- One side of `calculateDistributionStats`; `mean` throws on an empty
value list. -/
def distSideOf (sqrtF : ℚ → ℚ) (values : List ℚ) : Except String DistSide :=
  match ssMean values with
  | .error e => .error e
  | .ok m =>
    match ssQuantile values (1/2) with
    | .error e => .error e
    | .ok median =>
      .ok { mean := m
            median := median
            std := sqrtF (popVariance values)
            skewness := calculateSkewness sqrtF values
            kurtosis := calculateKurtosis sqrtF values }

/-- `calculateDistributionStats(simulations)`. -/
def calculateDistributionStats (sqrtF : ℚ → ℚ)
    (simulations : List SimulationScenario) : Except String DistributionStats :=
  let returns := simulations.map (fun s => s.totalReturn)
  let sharpeRatios := simulations.map (fun s => s.sharpeRatio)
  match distSideOf sqrtF returns with
  | .error e => .error e
  | .ok returnsSide =>
    match distSideOf sqrtF sharpeRatios with
    | .error e => .error e
    | .ok sharpeSide =>
      .ok { returns := returnsSide
            returnsMin := jsMin returns
            returnsMax := jsMax returns
            sharpeRatios := sharpeSide }

/-- `performScenarioAnalysis(simulations)` (array accesses out of range
are `undefined`, i.e. `none`). -/
structure ScenarioAnalysis where
  worstCaseReturn : Option SimulationScenario
  worstCaseSharpe : Option SimulationScenario
  bestCaseReturn : Option SimulationScenario
  bestCaseSharpe : Option SimulationScenario
  p5 : Option SimulationScenario
  p25 : Option SimulationScenario
  p75 : Option SimulationScenario
  p95 : Option SimulationScenario
deriving Repr, DecidableEq

/-- `performScenarioAnalysis(simulations)`. -/
def performScenarioAnalysis (simulations : List SimulationScenario) :
    ScenarioAnalysis :=
  let sortedByReturn := simulations.mergeSort
    (fun a b => decide (a.totalReturn ≤ b.totalReturn));
  let sortedBySharpe := simulations.mergeSort
    (fun a b => decide (a.sharpeRatio ≤ b.sharpeRatio));
  let n := sortedByReturn.length;
  { worstCaseReturn := sortedByReturn.get? 0
    worstCaseSharpe := sortedBySharpe.get? 0
    bestCaseReturn := sortedByReturn.get? (n - 1)
    bestCaseSharpe := sortedBySharpe.get? (sortedBySharpe.length - 1)
    p5 := sortedByReturn.get? (⌊(1/20 : ℚ) * (n : ℚ)⌋).toNat
    p25 := sortedByReturn.get? (⌊(1/4 : ℚ) * (n : ℚ)⌋).toNat
    p75 := sortedByReturn.get? (⌊(3/4 : ℚ) * (n : ℚ)⌋).toNat
    p95 := sortedByReturn.get? (⌊(19/20 : ℚ) * (n : ℚ)⌋).toNat }

/-- `calculateOverallRobustnessScore(robustnessMetrics)`:
`0.4 · returnRobustness + 0.4 · sharpeRobustness + 0.2 ·
positiveReturnRate`, each component defaulting to `0` through `|| 0`
when absent or `NaN` (and `0 || 0 = 0` agrees for a present zero). -/
def calculateOverallRobustnessScore (m : RobustnessMetrics) : ℚ :=
  (2/5) * (m.returnRobustness.percentileAboveThreshold.getD 0) +
  (2/5) * (m.sharpeRobustness.percentileAboveThreshold.getD 0) +
  (1/5) * (m.returnRobustness.percentilePositive.getD 0)

/-- The embedded `MonteCarloResult` (the confidence-interval table is
omitted: it is a pure aggregate no claim refers to, computed by
guarded quantiles that cannot throw). -/
structure MonteCarloResult where
  simulations : List SimulationScenario
  robustnessMetrics : RobustnessMetrics
  distributionStats : DistributionStats
  scenarioAnalysis : ScenarioAnalysis
  isRobust : Bool
  robustnessScore : ℚ
deriving Repr, DecidableEq

/-- `MonteCarloConfidenceEngine.runConfidenceAnalysis()` after
`initialize(baselineReturns, strategyFunction, baseParameters)`, with
the default `'bootstrap'` return distribution.  `sqrtF` models
`Math.sqrt`, `rng`/`k` the `Math.random()` stream. -/
def runConfidenceAnalysis (cfg : MonteCarloConfig) (sqrtF : ℚ → ℚ)
    (strategy : StrategyFunction) (baseParams : Params) (baseline : List ℚ)
    (rng : Nat → ℚ) (k : Nat) : Except String MonteCarloResult :=
  let baselineMetrics := simulateStrategy sqrtF strategy baseParams baseline none
  let sims := runMonteCarloSimulations cfg sqrtF strategy baseParams baseline rng k
  match calculateRobustnessMetrics cfg baselineMetrics sims.1 with
  | .error e => .error e
  | .ok robustness =>
    match calculateDistributionStats sqrtF sims.1 with
    | .error e => .error e
    | .ok dist =>
      let scenarios := performScenarioAnalysis sims.1
      let score := calculateOverallRobustnessScore robustness
      .ok { simulations := sims.1
            robustnessMetrics := robustness
            distributionStats := dist
            scenarioAnalysis := scenarios
            isRobust := decide (cfg.robustnessThreshold ≤ score)
            robustnessScore := score }

/-! ## Auxiliary definitions for the claims -/

/-- Sum of position market values (`Σ position.value`). -/
def sumMarketValues (l : List (String × Position)) : ℚ :=
  (l.map (fun e => e.2.value)).sum

/-- Sum of position weights (`Σ position.weight`). -/
def sumWeights (l : List (String × Position)) : ℚ :=
  (l.map (fun e => e.2.weight)).sum

/-- A reachable portfolio state holding 5 shares of `A` bought at $1
and last valued at $10 (`value = 50`), with $50 cash: the state after
`init 100 ["A"]`, a $5 purchase at price 1 with negligible costs, and a
price update to 10 (fields spelled out for a closed computation). -/
def c1StaleState : PortfolioState :=
  { cash := some 50
    totalValue := some 100
    positions := [("A",
      { shares := 5, avgPrice := 1, currentPrice := 10, value := 50, weight := 1/2 })]
    symbols := ["A"]
    history := []
    transactions := [] }

/-- The strategy function of end-to-end scenario 3: it always returns
the baseline return series unchanged. -/
def identityStrategy (baseline : List ℚ) : StrategyFunction :=
  fun _ _ => .ok { returns := some baseline }

/-! ## Theorems -/

/-- C9: for `|tradeValue| < minTradeSize`, `calculateTradeCost` returns
the plain number `0` (not the cost-breakdown record), so reading
`.totalCost` off the result yields `undefined` (`none`); for every trade
of at least `minTradeSize` it returns the breakdown record instead. -/
theorem c9_sub_minimum_trade_cost_is_plain_zero (m : TransactionCostModel)
    (tradeValue averageDailyVolume : ℚ)
    (h : |tradeValue| < m.minTradeSize) :
    m.calculateTradeCost tradeValue averageDailyVolume = .zero ∧
    (m.calculateTradeCost tradeValue averageDailyVolume).totalCostField = none ∧
    (∀ t v : ℚ, m.minTradeSize ≤ |t| →
      ∃ b, m.calculateTradeCost t v = .breakdown b) := by
  refine ⟨?_, ?_, ?_⟩
  · unfold TransactionCostModel.calculateTradeCost
    rw [if_pos h]
  · unfold TransactionCostModel.calculateTradeCost
    rw [if_pos h]
    rfl
  · intro t v ht
    unfold TransactionCostModel.calculateTradeCost
    rw [if_neg (not_lt.mpr ht)]
    exact ⟨_, rfl⟩

/-- Witness for C9 at the default cost model and an $80 trade. -/
theorem c9_sub_minimum_trade_cost_is_plain_zero_witness :
    (TransactionCostModel.defaults (fun _ _ => 1)).calculateTradeCost 80 1000000
      = .zero ∧
    ((TransactionCostModel.defaults (fun _ _ => 1)).calculateTradeCost 80 1000000).totalCostField
      = none ∧
    (∀ t v : ℚ, (TransactionCostModel.defaults (fun _ _ => 1)).minTradeSize ≤ |t| →
      ∃ b, (TransactionCostModel.defaults (fun _ _ => 1)).calculateTradeCost t v = .breakdown b) :=
  c9_sub_minimum_trade_cost_is_plain_zero _ 80 1000000 (by with_unfolding_all decide)

/-- C7: for a fixed trade value and daily volume, two cost models that
differ only in `variableCostBps` order their results monotonically:
below the minimum trade size both return the plain zero, and otherwise
both return breakdowns whose `totalCost` respects the `variableCostBps`
order. -/
theorem c7_variable_cost_bps_monotone (m1 m2 : TransactionCostModel)
    (tradeValue averageDailyVolume : ℚ)
    (hv : m1.variableCostBps ≤ m2.variableCostBps)
    (hfix : m1.fixedCost = m2.fixedCost)
    (himp : m1.marketImpactBps = m2.marketImpactBps)
    (hexp : m1.marketImpactExponent = m2.marketImpactExponent)
    (hspread : m1.bidAskSpreadBps = m2.bidAskSpreadBps)
    (hmin : m1.minTradeSize = m2.minTradeSize)
    (hpow : m1.powFn = m2.powFn) :
    (m1.calculateTradeCost tradeValue averageDailyVolume = .zero ∧
     m2.calculateTradeCost tradeValue averageDailyVolume = .zero) ∨
    (∃ b1 b2,
      m1.calculateTradeCost tradeValue averageDailyVolume = .breakdown b1 ∧
      m2.calculateTradeCost tradeValue averageDailyVolume = .breakdown b2 ∧
      b1.totalCost ≤ b2.totalCost) := by
  unfold TransactionCostModel.calculateTradeCost
  rw [hmin]
  by_cases hsmall : |tradeValue| < m2.minTradeSize
  · left
    rw [if_pos hsmall, if_pos hsmall]
    exact ⟨rfl, rfl⟩
  · right
    rw [if_neg hsmall, if_neg hsmall]
    refine ⟨_, _, rfl, rfl, ?_⟩
    simp only [hfix, himp, hexp, hspread, hpow]
    gcongr

/-- Witness for C7: default model against a copy with 7 bps variable
cost, on a $200 trade. -/
theorem c7_variable_cost_bps_monotone_witness :
    ((TransactionCostModel.defaults (fun _ _ => 1)).calculateTradeCost 200 1000000 = .zero ∧
     ({ TransactionCostModel.defaults (fun _ _ => 1) with
        variableCostBps := 7 }).calculateTradeCost 200 1000000 = .zero) ∨
    (∃ b1 b2,
      (TransactionCostModel.defaults (fun _ _ => 1)).calculateTradeCost 200 1000000 = .breakdown b1 ∧
      ({ TransactionCostModel.defaults (fun _ _ => 1) with
         variableCostBps := 7 }).calculateTradeCost 200 1000000 = .breakdown b2 ∧
      b1.totalCost ≤ b2.totalCost) :=
  c7_variable_cost_bps_monotone _ _ 200 1000000 (by with_unfolding_all decide)
    rfl rfl rfl rfl rfl rfl

/-- C10: with fewer than two history snapshots, `getPerformanceStats`
returns `null` (`none`), raises no error, and leaves the state
unchanged. -/
theorem c10_performance_stats_null_on_short_history
    (powF : ℚ → ℚ → ℚ) (sqrtF : ℚ → ℚ) (s : PortfolioState)
    (h : s.history.length < 2) :
    s.getPerformanceStats powF sqrtF = (s, .ok none) := by
  unfold PortfolioState.getPerformanceStats
  rw [if_pos h]

/-- Witness for C10 on a freshly constructed portfolio (empty history). -/
theorem c10_performance_stats_null_on_short_history_witness :
    (PortfolioState.init 100000 ["A"]).getPerformanceStats (fun _ _ => 1) (fun _ => 0)
      = (PortfolioState.init 100000 ["A"], .ok none) :=
  c10_performance_stats_null_on_short_history _ _ _ (by with_unfolding_all decide)

/-- C2 (failing input for the claimed funds-safety of `executeTrade`):
with $50 cash and a $80 target on an empty position under the default
cost model, the trade value 80 is below `minTradeSize = 100`, so
`calculateTradeCost` returns the plain `0`; `costs.totalCost` is then
`undefined`, the funds check `tradeValue + costs.totalCost > cash`
compares against `NaN` and is `false`, and the trade executes in full —
unshrunken, without `insufficient_funds` — leaving `cash = NaN`
(`none`) instead of shrinking to the $50 affordable size or rejecting. -/
theorem c2_unfunded_small_trade_executes_with_nan_cash :
    PortfolioState.executeTrade (TransactionCostModel.defaults (fun _ _ => 1))
      "A" 80 1 "d" 5 (PortfolioState.init 50 ["A"])
    = ExecResult.done
        { cash := none
          totalValue := some 50
          positions := [("A",
            { shares := 80, avgPrice := 1, currentPrice := 0, value := 80, weight := 0 })]
          symbols := ["A"]
          history := []
          transactions := [{ date := "d", symbol := "A", shares := 80, price := 1,
                             value := 80, costs := .zero, cashAfter := none }] }
        (.executed 80 80 .zero) := by
  with_unfolding_all decide

/-- A per-position transformation that preserves the `value` field
leaves the market-value sum unchanged. -/
theorem sumMarketValues_map_of_value_eq (l : List (String × Position))
    (f : String × Position → String × Position)
    (hf : ∀ e, (f e).2.value = e.2.value) :
    sumMarketValues (l.map f) = sumMarketValues l := by
  induction l with
  | nil => rfl
  | cons e l ih =>
    simp only [List.map_cons, sumMarketValues, List.sum_cons] at ih ⊢
    rw [hf e, ih]

/-- If every position with non-zero market value receives a truthy
price, the priced-value accumulation of `updatePrices` equals the full
market-value sum of the updated positions. -/
theorem pricedValueSum_eq_sumMarketValues (pd : String → Option ℚ)
    (l : List (String × Position))
    (h : ∀ e ∈ l, e.2.value ≠ 0 → ∃ p, pd e.1 = some p ∧ p ≠ 0) :
    pricedValueSum pd (l.map (updatePosPrice pd)) =
      sumMarketValues (l.map (updatePosPrice pd)) := by
  induction l with
  | nil => rfl
  | cons e l ih =>
    have he := h e (List.mem_cons_self e l)
    have ht : ∀ x ∈ l, x.2.value ≠ 0 → ∃ p, pd x.1 = some p ∧ p ≠ 0 :=
      fun x hx => h x (List.mem_cons_of_mem e hx)
    have hrest := ih ht
    simp only [List.map_cons, pricedValueSum, sumMarketValues, List.map_cons,
      List.sum_cons] at hrest ⊢
    have hhead :
        (match pd (updatePosPrice pd e).1 with
          | some p => if p ≠ 0 then (updatePosPrice pd e).2.value else 0
          | none => 0) = (updatePosPrice pd e).2.value := by
      cases hp : pd e.1 with
      | some p =>
        by_cases hp0 : p = 0
        · subst hp0
          have hval : e.2.value = 0 := by
            by_contra hv
            obtain ⟨q, hq, hq0⟩ := he hv
            rw [hp] at hq
            exact hq0 (by injection hq with h2; exact h2.symm)
          simp [updatePosPrice, hp, hval]
        · simp [updatePosPrice, hp, hp0]
      | none =>
        have hval : e.2.value = 0 := by
          by_contra hv
          obtain ⟨q, hq, _⟩ := he hv
          rw [hp] at hq
          exact Option.noConfusion hq
        simp [updatePosPrice, hp, hval]
    rw [hhead, hrest]

/-- C1 (amended): after `updatePrices`, `totalValue` equals cash plus
the market values of the positions that received a truthy price; in
particular, whenever every position with a non-zero value is priced,
`totalValue = cash + Σ position.value` holds exactly. -/
theorem c1_totalValue_eq_cash_plus_priced_values
    (s : PortfolioState) (pd : String → Option ℚ) (date : String)
    (h : ∀ e ∈ s.positions, e.2.value ≠ 0 → ∃ p, pd e.1 = some p ∧ p ≠ 0) :
    (s.updatePrices pd date).totalValue =
      jadd (s.updatePrices pd date).cash
        (some (sumMarketValues (s.updatePrices pd date).positions)) := by
  have h1 : (s.updatePrices pd date).totalValue =
      jadd s.cash (some (pricedValueSum pd (s.positions.map (updatePosPrice pd)))) := rfl
  have h2 : (s.updatePrices pd date).cash = s.cash := rfl
  have h3 : sumMarketValues (s.updatePrices pd date).positions =
      sumMarketValues (s.positions.map (updatePosPrice pd)) :=
    sumMarketValues_map_of_value_eq (s.positions.map (updatePosPrice pd)) _
      (fun _ => rfl)
  rw [h1, h2, h3, pricedValueSum_eq_sumMarketValues pd s.positions h]

/-- Witness for C1 (amended): a fresh one-symbol portfolio priced at 10. -/
theorem c1_totalValue_eq_cash_plus_priced_values_witness :
    ((PortfolioState.init 100 ["A"]).updatePrices (fun _ => some 10) "d").totalValue =
      jadd ((PortfolioState.init 100 ["A"]).updatePrices (fun _ => some 10) "d").cash
        (some (sumMarketValues
          (((PortfolioState.init 100 ["A"]).updatePrices (fun _ => some 10) "d").positions))) :=
  c1_totalValue_eq_cash_plus_priced_values _ _ "d"
    (fun _ _ _ => ⟨10, rfl, by norm_num⟩)

/-- C1 (counterexample): starting from the reachable state holding a
stale $50 position in `A` and $50 cash, an `updatePrices` call whose
price map omits `A` sets `totalValue = cash = 50`, while
`cash + Σ position.value = 100`: the claimed identity over all held
positions fails (by $50, far beyond any floating-point tolerance). -/
theorem c1_totalValue_cex :
    (PortfolioState.updatePrices (fun _ => none) "d2" c1StaleState).totalValue = some 50 ∧
    (PortfolioState.updatePrices (fun _ => none) "d2" c1StaleState).cash = some 50 ∧
    sumMarketValues (PortfolioState.updatePrices (fun _ => none) "d2" c1StaleState).positions = 50 ∧
    ¬ ((PortfolioState.updatePrices (fun _ => none) "d2" c1StaleState).totalValue =
        jadd (PortfolioState.updatePrices (fun _ => none) "d2" c1StaleState).cash
          (some (sumMarketValues
            (PortfolioState.updatePrices (fun _ => none) "d2" c1StaleState).positions))) := by
  with_unfolding_all decide

/-- Summing the weights `value / t` distributes: the weight sum is the
value sum divided by `t`. -/
theorem sumWeights_map_div (l : List (String × Position)) (t : ℚ) :
    sumWeights (l.map (fun e => (e.1, { e.2 with weight := e.2.value / t }))) =
      sumMarketValues l / t := by
  induction l with
  | nil => simp [sumWeights, sumMarketValues]
  | cons e l ih =>
    simp only [List.map_cons, sumWeights, sumMarketValues, List.sum_cons] at ih ⊢
    rw [ih, add_div]

/-- C3 (amended): after `updatePrices` with positive `totalValue = t`,
the position weights sum to `(Σ position.value) / t` — the cash share
and any stale unpriced value are not part of the numerator, so the sum
is `1` only when `cash` and every unpriced stale value vanish. -/
theorem c3_weights_sum_eq_values_over_total
    (s : PortfolioState) (pd : String → Option ℚ) (date : String) (t : ℚ)
    (h : (s.updatePrices pd date).totalValue = some t) (ht : 0 < t) :
    sumWeights (s.updatePrices pd date).positions =
      sumMarketValues (s.updatePrices pd date).positions / t := by
  have htv : jadd s.cash (some (pricedValueSum pd (s.positions.map (updatePosPrice pd)))) =
      some t := h
  have hpos : (s.updatePrices pd date).positions =
      (s.positions.map (updatePosPrice pd)).map
        (fun e => (e.1, { e.2 with weight :=
          if (jgt (jadd s.cash (some (pricedValueSum pd (s.positions.map (updatePosPrice pd)))))
              (some 0)) then
            e.2.value /
              (jadd s.cash
                (some (pricedValueSum pd (s.positions.map (updatePosPrice pd))))).getD 0
          else 0 })) := rfl
  rw [htv] at hpos
  have hg : jgt (some t) (some 0) = true := by
    simp [jgt, ht]
  simp only [hg, if_true, Option.getD_some] at hpos
  have h3 : sumMarketValues (s.updatePrices pd date).positions =
      sumMarketValues (s.positions.map (updatePosPrice pd)) :=
    sumMarketValues_map_of_value_eq (s.positions.map (updatePosPrice pd)) _
      (fun _ => rfl)
  rw [h3]
  conv_lhs => rw [hpos]
  rw [sumWeights_map_div]

/-- Witness for C3 (amended): fresh all-cash $4 portfolio, `A` priced
at 10. -/
theorem c3_weights_sum_eq_values_over_total_witness :
    sumWeights ((PortfolioState.init 4 ["A"]).updatePrices (fun _ => some 10) "d").positions =
      sumMarketValues
        ((PortfolioState.init 4 ["A"]).updatePrices (fun _ => some 10) "d").positions / 4 :=
  c3_weights_sum_eq_values_over_total _ _ "d" 4
    (by with_unfolding_all decide) (by norm_num)

/-- C3 (counterexample): a fresh all-cash portfolio (`init 4 ["A"]`)
updated with price 10 for `A` has `totalValue = 4 > 0` but
`Σ Position.weight = 0`, not ≈ 1 (off by 1, beyond any tolerance). -/
theorem c3_weights_sum_cex :
    ((PortfolioState.init 4 ["A"]).updatePrices (fun _ => some 10) "d").totalValue
      = some 4 ∧
    sumWeights ((PortfolioState.init 4 ["A"]).updatePrices (fun _ => some 10) "d").positions
      = 0 ∧
    ¬ (|sumWeights ((PortfolioState.init 4 ["A"]).updatePrices
          (fun _ => some 10) "d").positions - 1| ≤ 1/2) := by
  with_unfolding_all decide

/-- C5: with `lookbackWindow = 252`, `holdoutWindow = 63`,
`stepSize = 21` over exactly 400 trading dates, `generateTimeWindows`
produces exactly `⌊(400 - 252 - 63) / 21⌋ + 1 = 5` windows: the loop
admits test starts 252, 273, 294, 315, 336 and stops at 357, where no
more than `holdoutWindow` dates remain strictly after the test start. -/
theorem c5_walk_forward_window_count (dates : List String)
    (h : dates.length = 400) :
    (generateTimeWindows ⟨252, 63, 21⟩ dates).length = 5 ∧
    5 = (400 - 252 - 63) / 21 + 1 := by
  refine ⟨?_, by norm_num⟩
  unfold generateTimeWindows
  rw [h]
  norm_num
  rw [generateTimeWindowsAux]; rw [h]; norm_num
  rw [generateTimeWindowsAux]; rw [h]; norm_num
  rw [generateTimeWindowsAux]; rw [h]; norm_num
  rw [generateTimeWindowsAux]; rw [h]; norm_num
  rw [generateTimeWindowsAux]; rw [h]; norm_num
  rw [generateTimeWindowsAux]; rw [h]; norm_num

/-- Witness for C5 on 400 distinct date strings. -/
theorem c5_walk_forward_window_count_witness :
    (generateTimeWindows ⟨252, 63, 21⟩
      ((List.range 400).map (fun n => toString n))).length = 5 ∧
    5 = (400 - 252 - 63) / 21 + 1 :=
  c5_walk_forward_window_count _ (by simp)

/-- A risk-parity grid cell "fails": the core throws or does not
converge (no usable result). -/
def rpCellFails : Except String RPResult → Prop
  | .ok res => res.converged = false
  | .error _ => True

/-- A Black-Litterman grid cell "fails": the core throws or returns no
truthy `weights`. -/
def blCellFails : Except String BLResult → Prop
  | .ok res => res.weights = none
  | .error _ => True

/-- A fold whose step never changes the accumulator computes the
initial value. -/
theorem foldl_of_step_fixed {α β : Type} (f : α → β → α) (l : List β) (a : α)
    (h : ∀ acc b, f acc b = acc) : l.foldl f a = a := by
  induction l generalizing a with
  | nil => rfl
  | cons b l ih => rw [List.foldl_cons, h a b]; exact ih a

/-- With every risk-parity combination failing, `optimizeRiskParity`
returns the fallback (or propagates a pre-loop error). -/
theorem optimizeRiskParity_all_fail (cores : OptimizerCores)
    (dateLe : String → String → Bool) (symbols : List String)
    (hist : String → List PricePoint) (dataWindow : DateRange)
    (ranges : ParameterRanges)
    (hrp : ∀ cov mi tol, rpCellFails (cores.riskParityCore cov mi tol)) :
    optimizeRiskParity cores dateLe symbols hist dataWindow ranges =
      .ok (getFallbackStrategy symbols) ∨
    ∃ e, optimizeRiskParity cores dateLe symbols hist dataWindow ranges = .error e := by
  unfold optimizeRiskParity
  split
  next e heq =>
    right; exact ⟨e, rfl⟩
  next wr heq =>
    split
    next e heq2 =>
      right; exact ⟨e, rfl⟩
    next cm heq2 =>
      left
      have hstep : ∀ acc cell, riskParityStep cores cm acc cell = acc := by
        intro acc cell
        unfold riskParityStep
        cases hcall : cores.riskParityCore cm cell.1 cell.2 with
        | error e => rfl
        | ok res =>
          have hf := hrp cm cell.1 cell.2
          rw [hcall] at hf
          simp only [rpCellFails] at hf
          simp [hf]
      have hfold : ∀ cells : List (ℚ × ℚ),
          cells.foldl (riskParityStep cores cm) none = (none : GridAcc) :=
        fun cells => foldl_of_step_fixed _ _ _ hstep
      simp only [hfold]

/-- With every min-variance combination throwing, `optimizeMeanVariance`
returns the fallback (or propagates a pre-loop error). -/
theorem optimizeMeanVariance_all_fail (cores : OptimizerCores)
    (dateLe : String → String → Bool) (sqrtF : ℚ → ℚ) (symbols : List String)
    (hist : String → List PricePoint) (dataWindow : DateRange)
    (ranges : ParameterRanges)
    (hmv : ∀ er cov tr, ∃ e, cores.minVarianceCore er cov tr = .error e) :
    optimizeMeanVariance cores dateLe sqrtF symbols hist dataWindow ranges =
      .ok (getFallbackStrategy symbols) ∨
    ∃ e, optimizeMeanVariance cores dateLe sqrtF symbols hist dataWindow ranges = .error e := by
  unfold optimizeMeanVariance
  split
  next e heq =>
    right; exact ⟨e, rfl⟩
  next wr heq =>
    split
    next e heq2 =>
      right; exact ⟨e, rfl⟩
    next cm heq2 =>
      split
      next e heq3 =>
        right; exact ⟨e, rfl⟩
      next er heq3 =>
        left
        have hstep : ∀ acc tr, meanVarianceStep cores sqrtF er cm acc tr = acc := by
          intro acc tr
          unfold meanVarianceStep
          obtain ⟨e, he⟩ := hmv er cm tr
          rw [he]
        have hfold : ∀ range : List ℚ,
            range.foldl (meanVarianceStep cores sqrtF er cm) none = (none : GridAcc) :=
          fun range => foldl_of_step_fixed _ _ _ hstep
        simp only [hfold]

/-- With every Black-Litterman combination failing,
`optimizeBlackLitterman` returns the fallback (or propagates a pre-loop
error). -/
theorem optimizeBlackLitterman_all_fail (cores : OptimizerCores)
    (dateLe : String → String → Bool) (symbols : List String)
    (hist : String → List PricePoint) (dataWindow : DateRange)
    (ranges : ParameterRanges)
    (hbl : ∀ w cov tau ra, blCellFails (cores.blCore w cov tau ra)) :
    optimizeBlackLitterman cores dateLe symbols hist dataWindow ranges =
      .ok (getFallbackStrategy symbols) ∨
    ∃ e, optimizeBlackLitterman cores dateLe symbols hist dataWindow ranges = .error e := by
  unfold optimizeBlackLitterman
  split
  next e heq =>
    right; exact ⟨e, rfl⟩
  next wr heq =>
    split
    next e heq2 =>
      right; exact ⟨e, rfl⟩
    next cm heq2 =>
      left
      have hstep : ∀ acc cell,
          blackLittermanStep cores (List.replicate symbols.length (1 / (symbols.length : ℚ)))
            cm acc cell = acc := by
        intro acc cell
        unfold blackLittermanStep
        cases hcall : cores.blCore (List.replicate symbols.length (1 / (symbols.length : ℚ)))
            cm cell.1 cell.2 with
        | error e => rfl
        | ok res =>
          have hf := hbl (List.replicate symbols.length (1 / (symbols.length : ℚ)))
            cm cell.1 cell.2
          rw [hcall] at hf
          simp only [blCellFails] at hf
          simp [hf]
      have hfold : ∀ cells : List (ℚ × ℚ),
          cells.foldl
            (blackLittermanStep cores (List.replicate symbols.length (1 / (symbols.length : ℚ))) cm)
            none = (none : GridAcc) :=
        fun cells => foldl_of_step_fixed _ _ _ hstep
      simp only [hfold]

/-- C8: for every optimization method, if every grid-search parameter
combination fails (the injected core throws, or yields no converged /
no usable result), `optimizeStrategy` returns the equal-weight fallback
instead of raising — this also covers unknown methods and pre-loop
errors, which the outer `catch` converts to the same fallback. -/
theorem c8_failed_grid_search_returns_equal_weight_fallback
    (cores : OptimizerCores) (dateLe : String → String → Bool) (sqrtF : ℚ → ℚ)
    (symbols : List String) (hist : String → List PricePoint)
    (method : String) (dataWindow : DateRange) (ranges : ParameterRanges)
    (hrp : ∀ cov mi tol, rpCellFails (cores.riskParityCore cov mi tol))
    (hmv : ∀ er cov tr, ∃ e, cores.minVarianceCore er cov tr = .error e)
    (hbl : ∀ w cov tau ra, blCellFails (cores.blCore w cov tau ra)) :
    optimizeStrategy cores dateLe sqrtF symbols hist method dataWindow ranges =
      getFallbackStrategy symbols := by
  unfold optimizeStrategy tryOptimizeStrategy
  by_cases h1 : method = "risk_parity"
  · rw [if_pos h1]
    rcases optimizeRiskParity_all_fail cores dateLe symbols hist dataWindow ranges hrp with
      hok | ⟨e, herr⟩
    · rw [hok]
    · rw [herr]
  · rw [if_neg h1]
    by_cases h2 : method = "mean_variance"
    · rw [if_pos h2]
      rcases optimizeMeanVariance_all_fail cores dateLe sqrtF symbols hist dataWindow ranges hmv
        with hok | ⟨e, herr⟩
      · rw [hok]
      · rw [herr]
    · rw [if_neg h2]
      by_cases h3 : method = "black_litterman"
      · rw [if_pos h3]
        rcases optimizeBlackLitterman_all_fail cores dateLe symbols hist dataWindow ranges hbl
          with hok | ⟨e, herr⟩
        · rw [hok]
        · rw [herr]
      · rw [if_neg h3]

/-- Witness for C8: always-throwing cores on a two-symbol universe give
the equal-weight `[1/2, 1/2]` fallback. -/
theorem c8_failed_grid_search_returns_equal_weight_fallback_witness :
    optimizeStrategy
      { riskParityCore := fun _ _ _ => .error "singular"
        minVarianceCore := fun _ _ _ => .error "singular"
        blCore := fun _ _ _ _ => .error "singular" }
      (fun _ _ => true) (fun _ => 0) ["A", "B"] (fun _ => [])
      "risk_parity" { start := "a", stop := "b" } ParameterRanges.defaults =
      getFallbackStrategy ["A", "B"] :=
  c8_failed_grid_search_returns_equal_weight_fallback _ _ _ _ _ _ _ _
    (fun _ _ _ => trivial) (fun _ _ _ => ⟨"singular", rfl⟩) (fun _ _ _ _ => trivial)

/-- Sampler loop: once the target is reached the accumulator is
returned unchanged. -/
theorem generateSampleAux_done (sampler : BlockBootstrapSampler) (rng : Nat → ℚ)
    (targetLength fuel k : Nat) (sample : List ℚ)
    (h : targetLength ≤ sample.length) :
    generateSampleAux sampler rng targetLength fuel k sample = (sample, k) := by
  cases fuel with
  | zero => rw [generateSampleAux, if_pos h]
  | succ f => rw [generateSampleAux, if_pos h]

/-- Sampler loop: out of fuel, the accumulator is returned. -/
theorem generateSampleAux_zero (sampler : BlockBootstrapSampler) (rng : Nat → ℚ)
    (targetLength k : Nat) (sample : List ℚ) :
    generateSampleAux sampler rng targetLength 0 k sample = (sample, k) := by
  rw [generateSampleAux]
  split
  · rfl
  · rfl

/-- Sampler loop: one unfinished iteration appends one block and
advances the cursor. -/
theorem generateSampleAux_step (sampler : BlockBootstrapSampler) (rng : Nat → ℚ)
    (targetLength f k : Nat) (sample : List ℚ)
    (h : ¬ targetLength ≤ sample.length) :
    generateSampleAux sampler rng targetLength (f + 1) k sample =
      generateSampleAux sampler rng targetLength f (k + 1)
        (sample ++
          ((sampler.originalReturns.take
              (min ((⌊rng k * ((sampler.originalReturns.length - sampler.blockLength : Nat) + 1 : ℚ)⌋).toNat
                  + sampler.blockLength)
                sampler.originalReturns.length)).drop
            (⌊rng k * ((sampler.originalReturns.length - sampler.blockLength : Nat) + 1 : ℚ)⌋).toNat)) := by
  rw [generateSampleAux, if_neg h]

/-- A unit draw has floor zero. -/
theorem floor_unit_draw (u : ℚ) (h0 : 0 ≤ u) (h1 : u < 1) : ⌊u⌋ = 0 :=
  Int.floor_eq_zero_iff.mpr ⟨h0, h1⟩

/-- With `blockLength ≥ series.length` every appended block is the whole
original series, so up to the target the sample is the self-concatenated
series. -/
theorem generateSampleAux_big_blocks (series : List ℚ) (blockLength : Nat)
    (rng : Nat → ℚ) (targetLength : Nat)
    (hbl : series.length ≤ blockLength)
    (hrng : ∀ i, 0 ≤ rng i ∧ rng i < 1) :
    ∀ fuel k sample,
      targetLength ≤ sample.length + fuel * series.length →
      (generateSampleAux ⟨series, blockLength⟩ rng targetLength fuel k sample).1.take
          targetLength =
        (sample ++ (List.replicate fuel series).flatten).take targetLength := by
  intro fuel
  induction fuel with
  | zero =>
    intro k sample h
    simp only [Nat.zero_mul, Nat.add_zero] at h
    rw [generateSampleAux_zero]
    simp [List.take_append_of_le_length h]
  | succ f ih =>
    intro k sample h
    by_cases hdone : targetLength ≤ sample.length
    · rw [generateSampleAux_done _ _ _ _ _ _ hdone]
      simp [List.take_append_of_le_length hdone]
    · rw [generateSampleAux_step _ _ _ _ _ _ hdone]
      have hsub : ((series.length - blockLength : Nat) : ℚ) = 0 := by
        rw [Nat.sub_eq_zero_of_le hbl]
        norm_num
      have hfl : (⌊rng k * ((series.length - blockLength : Nat) + 1 : ℚ)⌋).toNat = 0 := by
        rw [hsub]
        rw [show ((0:ℚ) + 1) = 1 by norm_num, mul_one,
          floor_unit_draw (rng k) (hrng k).1 (hrng k).2]
        rfl
      have hblock :
          ((series.take (min ((⌊rng k * ((series.length - blockLength : Nat) + 1 : ℚ)⌋).toNat
              + blockLength) series.length)).drop
            (⌊rng k * ((series.length - blockLength : Nat) + 1 : ℚ)⌋).toNat) = series := by
        rw [hfl]
        simp [Nat.min_eq_right hbl]
      rw [hblock]
      have hlen : targetLength ≤ (sample ++ series).length + f * series.length := by
        rw [List.length_append]
        rw [Nat.succ_mul] at h
        omega
      rw [ih (k + 1) (sample ++ series) hlen]
      rw [List.append_assoc]
      rfl

/-- Dropping `i` elements of an `(i+1)`-prefix isolates the `i`-th
element. -/
theorem take_succ_drop_eq (l : List ℚ) : ∀ i : Nat, i < l.length →
    (l.take (i + 1)).drop i = [l.getD i 0] := by
  induction l with
  | nil => intro i h; simp at h
  | cons a t ih =>
    intro i h
    cases i with
    | zero => simp
    | succ n =>
      simp only [List.take_succ_cons, List.drop_succ_cons]
      exact ih n (by simpa using h)

/-- With `blockLength = 1` the `j`-th sampled element is the single
observation indexed by the `j`-th draw. -/
theorem generateSampleAux_unit_blocks (series : List ℚ) (rng : Nat → ℚ)
    (targetLength : Nat) (hne : series.length ≠ 0)
    (hrng : ∀ i, 0 ≤ rng i ∧ rng i < 1) :
    ∀ fuel k sample,
      targetLength ≤ sample.length + fuel →
      (generateSampleAux ⟨series, 1⟩ rng targetLength fuel k sample).1 =
        sample ++ (List.range (targetLength - sample.length)).map
          (fun j => series.getD (⌊rng (k + j) * (series.length : ℚ)⌋).toNat 0) := by
  intro fuel
  induction fuel with
  | zero =>
    intro k sample h
    simp only [Nat.add_zero] at h
    rw [generateSampleAux_zero, Nat.sub_eq_zero_of_le h]
    simp
  | succ f ih =>
    intro k sample h
    by_cases hdone : targetLength ≤ sample.length
    · rw [generateSampleAux_done _ _ _ _ _ _ hdone, Nat.sub_eq_zero_of_le hdone]
      simp
    · rw [generateSampleAux_step _ _ _ _ _ _ hdone]
      have hcast : ((series.length - 1 : Nat) : ℚ) + 1 = (series.length : ℚ) := by
        have h1 : 1 ≤ series.length := Nat.one_le_iff_ne_zero.mpr hne
        push_cast [h1]
        ring
      have hidx : (⌊rng k * ((series.length - 1 : Nat) + 1 : ℚ)⌋).toNat < series.length := by
        rw [hcast]
        have hlt : rng k * (series.length : ℚ) < (series.length : ℚ) := by
          have hpos : (0:ℚ) < (series.length : ℚ) := by
            exact_mod_cast Nat.pos_of_ne_zero hne
          calc rng k * (series.length : ℚ) < 1 * (series.length : ℚ) := by
                exact mul_lt_mul_of_pos_right (hrng k).2 hpos
            _ = (series.length : ℚ) := one_mul _
        have hfl : ⌊rng k * (series.length : ℚ)⌋ < (series.length : ℤ) := by
          exact Int.floor_lt.mpr (by exact_mod_cast hlt)
        have h0 : 0 ≤ ⌊rng k * (series.length : ℚ)⌋ := by
          apply Int.floor_nonneg.mpr
          exact mul_nonneg (hrng k).1 (by positivity)
        omega
      have hblock :
          ((series.take (min ((⌊rng k * ((series.length - 1 : Nat) + 1 : ℚ)⌋).toNat + 1)
              series.length)).drop
            (⌊rng k * ((series.length - 1 : Nat) + 1 : ℚ)⌋).toNat) =
          [series.getD ((⌊rng k * (series.length : ℚ)⌋).toNat) 0] := by
        rw [hcast] at hidx ⊢
        rw [Nat.min_eq_left (by omega)]
        exact take_succ_drop_eq series _ hidx
      rw [hblock]
      have hlen : targetLength ≤ (sample ++ [series.getD ((⌊rng k * (series.length : ℚ)⌋).toNat) 0]).length + f := by
        rw [List.length_append]
        simp only [List.length_singleton]
        omega
      rw [ih (k + 1) _ hlen]
      rw [List.append_assoc]
      congr 1
      have hm : targetLength - sample.length = (targetLength - (sample.length + 1)) + 1 := by
        omega
      rw [List.length_append, List.length_singleton, hm]
      rw [List.range_succ_eq_map]
      simp only [List.map_cons, List.map_map, List.singleton_append]
      congr 1
      apply List.map_congr_left
      intro j _
      have harg : k + 1 + j = k + Nat.succ j := by omega
      simp [Function.comp, harg]

/-- C6: block-bootstrap degenerate cases.  (1) With `blockLength ≥
series.length`, every generated sample equals the first `targetLength`
elements of the original series concatenated with itself, for every
random draw in `[0, 1)`; (2) in particular, a sample of the series'
own length reproduces the series exactly.  (3) With `blockLength = 1`,
the `j`-th sampled element is the single observation selected by the
`j`-th independent draw, index `⌊u_j · n⌋`; (4) that index map sends
`u` to `idx` exactly on the interval `[idx/n, (idx+1)/n)`, so each of
the `n` observations is chosen uniformly. -/
theorem c6_block_bootstrap_degenerate_cases (series : List ℚ) (rng : Nat → ℚ)
    (k targetLength : Nat) (hne : series ≠ [])
    (hrng : ∀ i, 0 ≤ rng i ∧ rng i < 1) :
    (∀ blockLength, series.length ≤ blockLength →
      (BlockBootstrapSampler.generateSample ⟨series, blockLength⟩ rng k targetLength).1 =
        ((List.replicate targetLength series).flatten).take targetLength) ∧
    (∀ blockLength, series.length ≤ blockLength →
      (BlockBootstrapSampler.generateSample ⟨series, blockLength⟩ rng k series.length).1 =
        series) ∧
    ((BlockBootstrapSampler.generateSample ⟨series, 1⟩ rng k targetLength).1 =
      (List.range targetLength).map
        (fun j => series.getD (⌊rng (k + j) * (series.length : ℚ)⌋).toNat 0)) ∧
    (∀ u : ℚ, 0 ≤ u → u < 1 → ∀ idx : Nat, idx < series.length →
      ((⌊u * (series.length : ℚ)⌋).toNat = idx ↔
        ((idx : ℚ) / (series.length : ℚ) ≤ u ∧
          u < ((idx : ℚ) + 1) / (series.length : ℚ)))) := by
  have hlenpos : 0 < series.length := List.length_pos.mpr hne
  have hbig : ∀ blockLength, series.length ≤ blockLength → ∀ target : Nat,
      (BlockBootstrapSampler.generateSample ⟨series, blockLength⟩ rng k target).1 =
        ((List.replicate target series).flatten).take target := by
    intro blockLength hbl target
    have hfuel : target ≤ ([] : List ℚ).length + target * series.length := by
      simp only [List.length_nil, Nat.zero_add]
      exact Nat.le_mul_of_pos_right target hlenpos
    have h := generateSampleAux_big_blocks series blockLength rng target hbl hrng
      target k [] hfuel
    show (generateSampleAux ⟨series, blockLength⟩ rng target target k []).1.take target = _
    rw [h, List.nil_append]
  refine ⟨fun bl hbl => hbig bl hbl targetLength, ?_, ?_, ?_⟩
  · intro blockLength hbl
    rw [hbig blockLength hbl series.length]
    cases hs : series with
    | nil => exact absurd hs hne
    | cons a t =>
      have hlen1 : (a :: t).length = t.length + 1 := by simp
      rw [hlen1]
      simp only [List.replicate_succ, List.flatten_cons]
      rw [← hlen1, List.take_append_of_le_length (le_refl (a :: t).length),
        List.take_length]
  · have hfuel : targetLength ≤ ([] : List ℚ).length + targetLength := by simp
    have h := generateSampleAux_unit_blocks series rng targetLength
      (Nat.pos_iff_ne_zero.mp hlenpos) hrng targetLength k [] hfuel
    show (generateSampleAux ⟨series, 1⟩ rng targetLength targetLength k []).1.take
        targetLength = _
    rw [h, List.nil_append]
    apply List.take_of_length_le
    simp
  · intro u h0 h1 idx hidx
    have hq : (0:ℚ) < (series.length : ℚ) := by exact_mod_cast hlenpos
    have hnn : 0 ≤ ⌊u * (series.length : ℚ)⌋ :=
      Int.floor_nonneg.mpr (mul_nonneg h0 (le_of_lt hq))
    constructor
    · intro htn
      have hfl : ⌊u * (series.length : ℚ)⌋ = (idx : ℤ) := by omega
      have hiff := Int.floor_eq_iff.mp hfl
      obtain ⟨hlo, hhi⟩ := hiff
      constructor
      · rw [div_le_iff₀ hq]
        exact_mod_cast hlo
      · rw [lt_div_iff₀ hq]
        push_cast at hhi ⊢
        linarith
    · intro ⟨hlo, hhi⟩
      have hfl : ⌊u * (series.length : ℚ)⌋ = (idx : ℤ) := by
        apply Int.floor_eq_iff.mpr
        constructor
        · rw [div_le_iff₀ hq] at hlo
          exact_mod_cast hlo
        · rw [lt_div_iff₀ hq] at hhi
          push_cast
          linarith
      omega

/-- Witness for C6 on the series `[1, 2, 3]` with the constant draw 0. -/
theorem c6_block_bootstrap_degenerate_cases_witness :
    (BlockBootstrapSampler.generateSample ⟨[1, 2, 3], 3⟩ (fun _ => 0) 0 5).1 =
      ((List.replicate 5 ([1, 2, 3] : List ℚ)).flatten).take 5 ∧
    (BlockBootstrapSampler.generateSample ⟨[1, 2, 3], 3⟩ (fun _ => 0) 0
        ([1, 2, 3] : List ℚ).length).1 = [1, 2, 3] ∧
    ((BlockBootstrapSampler.generateSample ⟨[1, 2, 3], 1⟩ (fun _ => 0) 0 5).1 =
      (List.range 5).map
        (fun j => ([1, 2, 3] : List ℚ).getD
          (⌊(fun _ : Nat => (0:ℚ)) (0 + j) * (([1, 2, 3] : List ℚ).length : ℚ)⌋).toNat 0)) ∧
    ((⌊(1/2 : ℚ) * (([1, 2, 3] : List ℚ).length : ℚ)⌋).toNat = 1 ↔
      ((1 : ℚ) / (([1, 2, 3] : List ℚ).length : ℚ) ≤ 1/2 ∧
        (1/2 : ℚ) < ((1 : ℚ) + 1) / (([1, 2, 3] : List ℚ).length : ℚ))) := by
  have h := c6_block_bootstrap_degenerate_cases [1, 2, 3] (fun _ => 0) 0 5
    (by simp) (fun _ => ⟨le_refl 0, by norm_num⟩)
  exact ⟨h.1 3 (by simp), h.2.1 3 (by simp), h.2.2.1,
    h.2.2.2 (1/2) (by norm_num) (by norm_num) 1 (by simp)⟩

/-- The identity strategy's scenario: regardless of the resampled
returns and parameters, the effective return series is the baseline, so
every metric is the baseline's. -/
theorem simulateStrategy_identity (sqrtF : ℚ → ℚ) (bp : Params)
    (baseline r : List ℚ) (params : Option Params) (hne : baseline ≠ []) :
    simulateStrategy sqrtF (identityStrategy baseline) bp r params =
      { returns := baseline
        totalReturn := simTotalReturn baseline
        volatility := sqrtF (popVariance baseline)
        sharpeRatio := simSharpe sqrtF baseline
        maxDrawdown := simMaxDrawdown baseline
        var95 := simVaR baseline (19/20)
        parameters := params.getD bp
        perturbations := [] } := by
  unfold simulateStrategy identityStrategy
  simp only [Option.getD_some]
  rw [if_neg (by simpa using hne)]

/-- Every trial of the identity-strategy Monte Carlo run carries the
baseline's total return and Sharpe ratio. -/
theorem runOneSim_identity (cfg : MonteCarloConfig) (sqrtF : ℚ → ℚ) (bp : Params)
    (baseline : List ℚ) (rng : Nat → ℚ) (k : Nat) (hne : baseline ≠ []) :
    (runOneSim cfg sqrtF (identityStrategy baseline) bp baseline rng k).1.totalReturn =
      simTotalReturn baseline ∧
    (runOneSim cfg sqrtF (identityStrategy baseline) bp baseline rng k).1.sharpeRatio =
      simSharpe sqrtF baseline := by
  unfold runOneSim
  by_cases hcoin :
      rng (({ originalReturns := baseline, blockLength := cfg.blockBootstrapLength
        } : BlockBootstrapSampler).generateSample rng k baseline.length).2 < 1/2
  · rw [if_pos hcoin]
    simp only [simulateStrategy_identity sqrtF bp baseline _ _ hne]
    exact ⟨trivial, trivial⟩
  · rw [if_neg hcoin]
    simp only [simulateStrategy_identity sqrtF bp baseline _ _ hne]
    exact ⟨trivial, trivial⟩

/-- The simulation loop preserves the per-trial property and produces
exactly `n` additional scenarios. -/
theorem runSimsAux_identity (cfg : MonteCarloConfig) (sqrtF : ℚ → ℚ) (bp : Params)
    (baseline : List ℚ) (rng : Nat → ℚ) (hne : baseline ≠ []) :
    ∀ (n k : Nat) (acc : List SimulationScenario),
      (∀ s ∈ acc, s.totalReturn = simTotalReturn baseline ∧
        s.sharpeRatio = simSharpe sqrtF baseline) →
      ((∀ s ∈ (runSimsAux cfg sqrtF (identityStrategy baseline) bp baseline rng n k acc).1,
          s.totalReturn = simTotalReturn baseline ∧
          s.sharpeRatio = simSharpe sqrtF baseline) ∧
        (runSimsAux cfg sqrtF (identityStrategy baseline) bp baseline rng n k acc).1.length =
          acc.length + n) := by
  intro n
  induction n with
  | zero =>
    intro k acc hacc
    exact ⟨hacc, rfl⟩
  | succ m ih =>
    intro k acc hacc
    rw [runSimsAux]
    have hone := runOneSim_identity cfg sqrtF bp baseline rng k hne
    have hacc2 : ∀ s ∈ acc ++
        [(runOneSim cfg sqrtF (identityStrategy baseline) bp baseline rng k).1],
        s.totalReturn = simTotalReturn baseline ∧
        s.sharpeRatio = simSharpe sqrtF baseline := by
      intro s hs
      rcases List.mem_append.mp hs with h | h
      · exact hacc s h
      · rcases List.mem_singleton.mp h with rfl
        exact hone
    obtain ⟨hall, hlen⟩ := ih _ _ hacc2
    refine ⟨hall, ?_⟩
    rw [hlen, List.length_append, List.length_singleton]
    omega

/-- The filtered trial list of the identity-strategy run: all
`numSimulations` trials survive and carry the baseline metrics. -/
theorem runMonteCarloSimulations_identity (cfg : MonteCarloConfig) (sqrtF : ℚ → ℚ)
    (bp : Params) (baseline : List ℚ) (rng : Nat → ℚ) (k : Nat)
    (hne : baseline ≠ []) (hT : simTotalReturn baseline ≠ -1) :
    ((runMonteCarloSimulations cfg sqrtF (identityStrategy baseline) bp baseline rng k).1.length =
      cfg.numSimulations) ∧
    (∀ s ∈ (runMonteCarloSimulations cfg sqrtF (identityStrategy baseline) bp baseline rng k).1,
      s.totalReturn = simTotalReturn baseline ∧
      s.sharpeRatio = simSharpe sqrtF baseline) := by
  obtain ⟨hall, hlen⟩ := runSimsAux_identity cfg sqrtF bp baseline rng hne
    cfg.numSimulations k [] (by intro s hs; simp at hs)
  have hmain :
      (runMonteCarloSimulations cfg sqrtF (identityStrategy baseline) bp baseline rng k).1 =
      (runSimsAux cfg sqrtF (identityStrategy baseline) bp baseline rng
        cfg.numSimulations k []).1 := by
    show ((runSimsAux cfg sqrtF (identityStrategy baseline) bp baseline rng
        cfg.numSimulations k []).1.filter (fun s => s.totalReturn ≠ -1)) = _
    apply List.filter_eq_self.mpr
    intro s hs
    have h1 := (hall s hs).1
    simp [h1, hT]
  rw [hmain]
  refine ⟨?_, hall⟩
  rw [hlen]
  simp

/-- Fraction of a constant list: all or nothing. -/
theorem fracSatisfying_const (l : List ℚ) (c : ℚ) (p : ℚ → Bool)
    (hall : ∀ x ∈ l, x = c) (hne : l ≠ []) :
    fracSatisfying l p = some (if p c = true then 1 else 0) := by
  have hlen : l.length ≠ 0 := fun h => hne (List.length_eq_zero.mp h)
  unfold fracSatisfying
  rw [if_neg hlen]
  by_cases hp : p c = true
  · rw [if_pos hp]
    have hfull : l.filter p = l := by
      apply List.filter_eq_self.mpr
      intro a ha
      rw [hall a ha]
      exact hp
    rw [hfull]
    congr 1
    apply div_self
    exact_mod_cast hlen
  · rw [if_neg hp]
    have hempty : l.filter p = [] := by
      apply List.filter_eq_nil_iff.mpr
      intro a ha
      rw [hall a ha]
      simpa using hp
    rw [hempty]
    simp

/-- `quantile` succeeds on any non-empty list for `p ∈ [0, 1]`. -/
theorem ssQuantile_ok (l : List ℚ) (p : ℚ) (hl : l.length ≠ 0)
    (h0 : 0 ≤ p) (h1 : p ≤ 1) : ∃ q, ssQuantile l p = .ok q := by
  unfold ssQuantile
  rw [if_neg hl, if_neg (by push_neg; exact ⟨h0, h1⟩)]
  exact ⟨_, rfl⟩

/-- `distSideOf` succeeds on any non-empty value list. -/
theorem distSideOf_ok (sqrtF : ℚ → ℚ) (values : List ℚ) (hl : values.length ≠ 0) :
    ∃ d, distSideOf sqrtF values = .ok d := by
  unfold distSideOf
  obtain ⟨q, hq⟩ := ssQuantile_ok values (1/2) hl (by norm_num) (by norm_num)
  rw [show ssMean values = .ok (values.sum / (values.length : ℚ)) from by
    unfold ssMean; rw [if_neg hl], hq]
  exact ⟨_, rfl⟩

/-- `calculateDistributionStats` succeeds on a non-empty trial list. -/
theorem calculateDistributionStats_ok (sqrtF : ℚ → ℚ)
    (sims : List SimulationScenario) (hne : sims ≠ []) :
    ∃ d, calculateDistributionStats sqrtF sims = .ok d := by
  unfold calculateDistributionStats
  have hlen : (sims.map (fun s => s.totalReturn)).length ≠ 0 := by
    simpa using fun h => hne (List.length_eq_zero.mp h)
  have hlen2 : (sims.map (fun s => s.sharpeRatio)).length ≠ 0 := by
    simpa using fun h => hne (List.length_eq_zero.mp h)
  obtain ⟨d1, hd1⟩ := distSideOf_ok sqrtF (sims.map (fun s => s.totalReturn)) hlen
  obtain ⟨d2, hd2⟩ := distSideOf_ok sqrtF (sims.map (fun s => s.sharpeRatio)) hlen2
  simp only [hd1, hd2]
  exact ⟨_, rfl⟩

/-- Robustness metrics of a run whose surviving trials all carry the
same total return `T` and Sharpe ratio `S`: the three score fractions
are all-or-nothing. -/
theorem calculateRobustnessMetrics_const (cfg : MonteCarloConfig)
    (B : SimulationScenario) (sims : List SimulationScenario) (T S : ℚ)
    (hallT : ∀ s ∈ sims, s.totalReturn = T)
    (hallS : ∀ s ∈ sims, s.sharpeRatio = S)
    (hne : sims ≠ []) :
    ∃ rm, calculateRobustnessMetrics cfg B sims = .ok rm ∧
      rm.returnRobustness.percentileAboveThreshold =
        some (if decide (B.totalReturn * cfg.robustnessThreshold ≤ T) = true then 1 else 0) ∧
      rm.sharpeRobustness.percentileAboveThreshold =
        some (if decide (B.sharpeRatio * cfg.robustnessThreshold ≤ S) = true then 1 else 0) ∧
      rm.returnRobustness.percentilePositive =
        some (if decide ((0:ℚ) < T) = true then 1 else 0) := by
  have hmapT : ∀ x ∈ sims.map (fun s => s.totalReturn), x = T := by
    intro x hx
    obtain ⟨s, hs, rfl⟩ := List.mem_map.mp hx
    exact hallT s hs
  have hmapS : ∀ x ∈ sims.map (fun s => s.sharpeRatio), x = S := by
    intro x hx
    obtain ⟨s, hs, rfl⟩ := List.mem_map.mp hx
    exact hallS s hs
  have hretne : sims.map (fun s => s.totalReturn) ≠ [] := by
    simpa using hne
  have hshne : sims.map (fun s => s.sharpeRatio) ≠ [] := by
    simpa using hne
  have hlenret : (sims.map (fun s => s.totalReturn)).length ≠ 0 :=
    fun h => hretne (List.length_eq_zero.mp h)
  obtain ⟨q, hq⟩ := ssQuantile_ok (sims.map (fun s => s.totalReturn)) (1/20)
    hlenret (by norm_num) (by norm_num)
  unfold calculateRobustnessMetrics
  simp only [hq]
  refine ⟨_, rfl, ?_, ?_, ?_⟩
  · exact fracSatisfying_const _ T _ hmapT hretne
  · exact fracSatisfying_const _ S _ hmapS hshne
  · exact fracSatisfying_const _ T _ hmapT hretne

/-- The score of an identity-strategy Monte Carlo run: all trials
reproduce the baseline metrics, so each weighted score component is
all-or-nothing depending on the baseline's own sign conditions. -/
theorem runConfidenceAnalysis_identity_score (cfg : MonteCarloConfig)
    (sqrtF : ℚ → ℚ) (bp : Params) (baseline : List ℚ) (rng : Nat → ℚ) (k : Nat)
    (hne : baseline ≠ []) (hT : simTotalReturn baseline ≠ -1)
    (hn : cfg.numSimulations ≠ 0) :
    ∃ res,
      runConfidenceAnalysis cfg sqrtF (identityStrategy baseline) bp baseline rng k =
        .ok res ∧
      res.robustnessScore =
        (2/5) * (if simTotalReturn baseline * cfg.robustnessThreshold ≤
            simTotalReturn baseline then 1 else 0) +
        (2/5) * (if simSharpe sqrtF baseline * cfg.robustnessThreshold ≤
            simSharpe sqrtF baseline then 1 else 0) +
        (1/5) * (if (0:ℚ) < simTotalReturn baseline then 1 else 0) := by
  obtain ⟨hlen, hall⟩ :=
    runMonteCarloSimulations_identity cfg sqrtF bp baseline rng k hne hT
  have hsimsne :
      (runMonteCarloSimulations cfg sqrtF (identityStrategy baseline) bp baseline rng k).1
        ≠ [] := by
    intro h
    rw [h] at hlen
    simp at hlen
    exact hn hlen.symm
  have hB := simulateStrategy_identity sqrtF bp baseline baseline none hne
  obtain ⟨rm, hrm, hfrac1, hfrac2, hfrac3⟩ :=
    calculateRobustnessMetrics_const cfg
      (simulateStrategy sqrtF (identityStrategy baseline) bp baseline none)
      (runMonteCarloSimulations cfg sqrtF (identityStrategy baseline) bp baseline rng k).1
      (simTotalReturn baseline) (simSharpe sqrtF baseline)
      (fun s hs => (hall s hs).1) (fun s hs => (hall s hs).2) hsimsne
  obtain ⟨d, hd⟩ := calculateDistributionStats_ok sqrtF
    (runMonteCarloSimulations cfg sqrtF (identityStrategy baseline) bp baseline rng k).1
    hsimsne
  have hrun :
      runConfidenceAnalysis cfg sqrtF (identityStrategy baseline) bp baseline rng k =
      .ok { simulations :=
              (runMonteCarloSimulations cfg sqrtF (identityStrategy baseline) bp baseline rng k).1
            robustnessMetrics := rm
            distributionStats := d
            scenarioAnalysis := performScenarioAnalysis
              (runMonteCarloSimulations cfg sqrtF (identityStrategy baseline) bp baseline rng k).1
            isRobust := decide (cfg.robustnessThreshold ≤ calculateOverallRobustnessScore rm)
            robustnessScore := calculateOverallRobustnessScore rm } := by
    unfold runConfidenceAnalysis
    simp only [hrm, hd]
  refine ⟨_, hrun, ?_⟩
  show calculateOverallRobustnessScore rm = _
  unfold calculateOverallRobustnessScore
  rw [hfrac1, hfrac2, hfrac3]
  simp only [Option.getD_some]
  rw [hB]
  simp only [decide_eq_true_eq]

/-- C4 (amended): a Monte Carlo confidence run with
`numSimulations = 1000`, `robustnessThreshold = 0.5` and the
identity strategy reports `robustnessScore = 1.0` for every baseline
whose total return is positive and whose (simulator) Sharpe ratio is
non-negative. -/
theorem c4_identity_strategy_perfect_score (sqrtF : ℚ → ℚ) (bp : Params)
    (baseline : List ℚ) (rng : Nat → ℚ) (k : Nat)
    (hpos : 0 < simTotalReturn baseline)
    (hsharpe : 0 ≤ simSharpe sqrtF baseline) :
    ∃ res,
      runConfidenceAnalysis
        { numSimulations := 1000, blockBootstrapLength := 22,
          robustnessThreshold := 1/2, perturbationMagnitude := 1/10 }
        sqrtF (identityStrategy baseline) bp baseline rng k = .ok res ∧
      res.robustnessScore = 1 := by
  have hne : baseline ≠ [] := by
    intro h
    rw [h] at hpos
    norm_num [simTotalReturn] at hpos
  have hT : simTotalReturn baseline ≠ -1 := by
    intro h
    rw [h] at hpos
    norm_num at hpos
  obtain ⟨res, hres, hscore⟩ := runConfidenceAnalysis_identity_score
    { numSimulations := 1000, blockBootstrapLength := 22,
      robustnessThreshold := 1/2, perturbationMagnitude := 1/10 }
    sqrtF bp baseline rng k hne hT (by norm_num)
  refine ⟨res, hres, ?_⟩
  rw [hscore]
  rw [if_pos (by linarith), if_pos (by linarith), if_pos hpos]
  norm_num

/-- Witness for C4 (amended) at the constant baseline `[1/10, 1/10]`
(total return `21/100 > 0`, Sharpe `0`). -/
theorem c4_identity_strategy_perfect_score_witness :
    ∃ res,
      runConfidenceAnalysis
        { numSimulations := 1000, blockBootstrapLength := 22,
          robustnessThreshold := 1/2, perturbationMagnitude := 1/10 }
        (fun _ => 0) (identityStrategy [1/10, 1/10]) [] [1/10, 1/10] (fun _ => 0) 0
        = .ok res ∧
      res.robustnessScore = 1 :=
  c4_identity_strategy_perfect_score (fun _ => 0) [] [1/10, 1/10] (fun _ => 0) 0
    (by with_unfolding_all decide) (by with_unfolding_all decide)

/-- C4 (counterexample): with the losing baseline `[-1/2, -1/2]`
(total return `-3/4`), the same identity-strategy run reports
`robustnessScore = 2/5`, not `1.0`: every resampled trial repeats the
negative baseline return, so the return-robustness test `r ≥ 0.5 ·
baselineReturn` fails for all trials. -/
theorem c4_robustness_score_cex :
    ∃ res,
      runConfidenceAnalysis
        { numSimulations := 1000, blockBootstrapLength := 22,
          robustnessThreshold := 1/2, perturbationMagnitude := 1/10 }
        (fun _ => 0) (identityStrategy [-1/2, -1/2]) [] [-1/2, -1/2] (fun _ => 0) 0
        = .ok res ∧
      res.robustnessScore = 2/5 ∧ (2/5 : ℚ) ≠ 1 := by
  obtain ⟨res, hres, hscore⟩ := runConfidenceAnalysis_identity_score
    { numSimulations := 1000, blockBootstrapLength := 22,
      robustnessThreshold := 1/2, perturbationMagnitude := 1/10 }
    (fun _ => 0) [] [-1/2, -1/2] (fun _ => 0) 0
    (by with_unfolding_all decide) (by with_unfolding_all decide) (by norm_num)
  refine ⟨res, hres, ?_, by norm_num⟩
  rw [hscore]
  have h1 : ¬ (simTotalReturn [-1/2, -1/2] * ((1:ℚ)/2) ≤ simTotalReturn [-1/2, -1/2]) := by
    with_unfolding_all decide
  have h2 : simSharpe (fun _ => 0) [-1/2, -1/2] * ((1:ℚ)/2) ≤
      simSharpe (fun _ => 0) [-1/2, -1/2] := by
    with_unfolding_all decide
  have h3 : ¬ ((0:ℚ) < simTotalReturn [-1/2, -1/2]) := by
    with_unfolding_all decide
  rw [if_neg h1, if_pos h2, if_neg h3]
  norm_num
